import Mathlib

/-!
# CredsTester: a verification development

Shallow embedding of `main.go` (the password policy predicate `runRegexp`, the seven
randomized case generators, the orchestration loop and the evaluation loop) together
with proofs of the properties stated for it.

Conventions of the embedding

* A Go `string` is a Lean `String`; a `[]rune` is a `List Char`.
* `regexp` values are terms of the syntax tree `Regex`; `FindString` is a backtracking
  matcher with the leftmost-first semantics of Go's `regexp` package.
* `math/rand` is a tape of raw outcomes (`Src`); `Intn n` reads the next raw outcome
  and reduces it modulo `n`, so that quantifying over tapes is quantifying over every
  outcome of every draw.
* Go `int` is the 64-bit two's complement integer; `wrapInt` is the wrap-around of an
  arithmetic result.
-/

namespace CredsTester

/-! ## The `regexp` fragment used by `main.go` -/

/-- Syntax of the regular expressions compiled in `main`. -/
inductive Regex where
  /-- A literal character, possibly written escaped: `-`, `\.`, `\$`. -/
  | lit (c : Char)
  /-- A one-range bracket expression: `[A-Z]`. -/
  | range (lo hi : Char)
  /-- A bracket expression listing single characters: `[-_.!$|@%^&*]`. -/
  | set (cs : List Char)
  /-- Alternation `a|b`; the left branch has priority. -/
  | alt (a b : Regex)
  /-- Concatenation `ab`. -/
  | cat (a b : Regex)
  /-- A capturing group `(a)`. -/
  | group (a : Regex)
  /-- A greedy counted repetition without upper bound: `a{n,}`. -/
  | atLeast (a : Regex) (n : Nat)
  /-- The anchor `^` (no `m` flag): beginning of the text. -/
  | bot
  /-- The anchor `$` (no `m` flag): end of the text. -/
  | eot

/-- A matcher position: whether the position is the beginning of the text, and the
characters of the text that remain to its right. -/
abbrev Cursor := Bool × List Char

/-- Exactly `n` successive applications of a matcher step, in priority order. -/
def iterate (f : Cursor → List Cursor) : Nat → Cursor → List Cursor
  | 0, st => [st]
  | n + 1, st => (f st).flatMap (iterate f n)

/-- Greedy `*` over a matcher step: first the continuations after one more iteration,
last the current position. An iteration that consumes nothing is not repeated. The
fuel bounds the number of iterations; `List.length st.2 + 1` is always enough because
each iteration consumes a character. -/
def star (f : Cursor → List Cursor) : Nat → Cursor → List Cursor
  | 0, st => [st]
  | fuel + 1, st =>
    ((f st).filter (fun st' => decide (st'.2.length < st.2.length))).flatMap (star f fuel) ++ [st]

/-- All the positions at which a match of the expression starting at the given cursor
can end, in the priority order of a backtracking matcher. -/
def Regex.ends : Regex → Cursor → List Cursor
  | .lit _, (_, []) => []
  | .lit c, (_, x :: xs) => if x = c then [(false, xs)] else []
  | .range _ _, (_, []) => []
  | .range lo hi, (_, x :: xs) =>
    if lo.toNat ≤ x.toNat ∧ x.toNat ≤ hi.toNat then [(false, xs)] else []
  | .set _, (_, []) => []
  | .set cs, (_, x :: xs) => if x ∈ cs then [(false, xs)] else []
  | .alt a b, st => a.ends st ++ b.ends st
  | .cat a b, st => (a.ends st).flatMap b.ends
  | .group a, st => a.ends st
  | .atLeast a n, st => (iterate a.ends n st).flatMap (star a.ends (st.2.length + 1))
  | .bot, (b, r) => if b then [(b, r)] else []
  | .eot, (b, r) => if r.isEmpty then [(b, r)] else []

/-- The preferred match starting exactly at the cursor, if there is one: the text
between the cursor and the first end position. -/
def matchAt (re : Regex) (st : Cursor) : Option (List Char) :=
  match re.ends st with
  | [] => none
  | (_, rest) :: _ => some (st.2.take (st.2.length - rest.length))

/-- Leftmost search: try every start position from left to right. -/
def findFrom (re : Regex) : Bool → List Char → List Char
  | b, [] => (matchAt re (b, [])).getD []
  | b, x :: xs =>
    match matchAt re (b, x :: xs) with
    | some m => m
    | none => findFrom re false xs

/-- The method `(*Regexp).FindString`: the text of the leftmost match, `""` when there is none. -/
def FindString (re : Regex) (s : String) : String :=
  ⟨findFrom re true s.data⟩

/-! ## Package-level variables of `main.go` -/

/-- The variable `legalChars` (line 41). -/
def legalChars : List String := ["-", "_", ".", "!", "$", "|", "@", "%", "^", "&", "*"]

/-- The variable `illegalChars` (line 42). -/
def illegalChars : List String :=
  ["+", "=", "(", ")", "#", "~", "\x7d", "\x7b", "[", "]", "\\", "<", ">", "/", "?", " ", "\"",
    "'", "`", ","]

/-- The parenthesised alternation of `validPasswordRegex`:
`([A-Z]|[a-z]|[0-9]|-|_|\.|!|\$|\||@|%|\^|&|\*)`. -/
def validPasswordGroup : Regex :=
  .group
    (.alt (.range 'A' 'Z') (.alt (.range 'a' 'z') (.alt (.range '0' '9')
    (.alt (.lit '-') (.alt (.lit '_') (.alt (.lit '.') (.alt (.lit '!')
    (.alt (.lit '$') (.alt (.lit '|') (.alt (.lit '@') (.alt (.lit '%')
    (.alt (.lit '^') (.alt (.lit '&') (.lit '*'))))))))))))))

/-- The variable `validPasswordRegex` (line 523):
`^([A-Z]|[a-z]|[0-9]|-|_|\.|!|\$|\||@|%|\^|&|\*){8,}$`. -/
def validPasswordRegex : Regex :=
  .cat .bot (.cat (.atLeast validPasswordGroup 8) .eot)

/-- The variable `passwordUpperLettersRegex` (line 527): `[A-Z]`. -/
def passwordUpperLettersRegex : Regex := .range 'A' 'Z'

/-- The variable `passwordLowerLettersRegex` (line 531): `[a-z]`. -/
def passwordLowerLettersRegex : Regex := .range 'a' 'z'

/-- The variable `passwordNumbersRegex` (line 535): `[0-9]`. -/
def passwordNumbersRegex : Regex := .range '0' '9'

/-- The variable `passwordLegalSpecialRegex` (line 539): `([-_.!$|@%^&*])`. -/
def passwordLegalSpecialRegex : Regex :=
  .group (.set ['-', '_', '.', '!', '$', '|', '@', '%', '^', '&', '*'])

/-- The function `runRegexp` (lines 46-55). -/
def runRegexp (passwd : String) : Bool :=
  let upperCharCheck := FindString passwordUpperLettersRegex passwd != ""
  let lowerCharCheck := FindString passwordLowerLettersRegex passwd != ""
  let numberCheck := FindString passwordNumbersRegex passwd != ""
  let legalSpecialCharCheck := FindString passwordLegalSpecialRegex passwd != ""
  let validPasswordCheck := FindString validPasswordRegex passwd != ""
  let emptyStringCheck := passwd == ""
  upperCharCheck && lowerCharCheck && numberCheck && legalSpecialCharCheck
    && validPasswordCheck && !emptyStringCheck

/-! ## The policy in the words of the specification -/

/-- Membership in the class Upper, `A-Z`. -/
def isUpper (c : Char) : Bool := decide ('A'.toNat ≤ c.toNat ∧ c.toNat ≤ 'Z'.toNat)

/-- Membership in the class Lower, `a-z`. -/
def isLower (c : Char) : Bool := decide ('a'.toNat ≤ c.toNat ∧ c.toNat ≤ 'z'.toNat)

/-- Membership in the class Digit, `0-9`. -/
def isDigit (c : Char) : Bool := decide ('0'.toNat ≤ c.toNat ∧ c.toNat ≤ '9'.toNat)

/-- Membership in the class LegalSpecial: the character is an entry of `legalChars`. -/
def isLegalSpecial (c : Char) : Bool := decide (String.singleton c ∈ legalChars)

/-- Membership in the class IllegalSpecial: the character is an entry of
`illegalChars`. -/
def isIllegalSpecial (c : Char) : Bool := decide (String.singleton c ∈ illegalChars)

/-- The alphabet of the policy: Upper, Lower, Digit or LegalSpecial. -/
def isLegal (c : Char) : Bool := isUpper c || isLower c || isDigit c || isLegalSpecial c

/-- The policy as the specification words it: at least 8 characters, every character
in the alphabet, and each of the four classes present. -/
def policy (s : String) : Prop :=
  8 ≤ s.length ∧ (∀ c ∈ s.data, isLegal c = true) ∧
    (∃ c ∈ s.data, isUpper c = true) ∧ (∃ c ∈ s.data, isLower c = true) ∧
    (∃ c ∈ s.data, isDigit c = true) ∧ (∃ c ∈ s.data, isLegalSpecial c = true)

/-- A matcher step that consumes exactly one character, accepted by `p`. -/
def OneChar (f : Cursor → List Cursor) (p : Char → Bool) : Prop :=
  ∀ b, f (b, []) = [] ∧ ∀ x xs, f (b, x :: xs) = if p x = true then [(false, xs)] else []


/-! ## Library functions used by the generators -/

/-- The state of `math/rand`: the raw outcomes still to be drawn, in order. -/
abbrev Src := Nat → Nat

/-- The call `rand.Intn(n)` for `n > 0`: a number in `[0, n)` and the advanced source.
Every number of `[0, n)` is the outcome for some tape. -/
def Intn (n : Nat) (g : Src) : Nat × Src := (g 0 % n, fun i => g (i + 1))

/-- The call `make([]string, n)`: a slice of `n` empty strings. -/
def makeStrings (n : Nat) : List String := List.replicate n ""

/-- The function `strconv.Itoa` on a non-negative argument. -/
def Itoa (i : Nat) : String := Nat.repr i

/-- The function `strings.Join(elems, sep)`. -/
def Join : List String → String → String
  | [], _ => ""
  | [x], _ => x
  | x :: y :: rest, sep => x ++ sep ++ Join (y :: rest) sep

/-- The closure passed to `rand.Shuffle`: `shuff[i], shuff[j] = shuff[j], shuff[i]`. -/
def swapRunes (shuff : List Char) (i j : Nat) : List Char :=
  (shuff.set i (shuff.getD j default)).set j (shuff.getD i default)

/-- The loop of `rand.Shuffle(n, swap)`:
`for i := n - 1; i > 0; i-- { j := Intn(i + 1); swap(i, j) }`.
The first argument is the current value of `i`. -/
def shuffleLoop : Nat → List Char → Src → List Char × Src
  | 0, shuff, g => (shuff, g)
  | i + 1, shuff, g =>
    shuffleLoop i (swapRunes shuff (i + 1) (Intn (i + 2) g).1) (Intn (i + 2) g).2

/-- The call `rand.Shuffle(len(shuff), swap)` with the closure `swapRunes`. -/
def Shuffle (shuff : List Char) (g : Src) : List Char × Src :=
  shuffleLoop (shuff.length - 1) shuff g

/-- The built-in `len(s)` of a string: the number of bytes of its UTF-8 encoding. -/
def len (s : String) : Nat := (s.data.map Char.utf8Size).sum

/-- The runes wholly contained in the first `k` bytes. -/
def takeBytes : Nat → List Char → List Char
  | _, [] => []
  | k, c :: cs => if c.utf8Size ≤ k then c :: takeBytes (k - c.utf8Size) cs else []

/-- The slice expression `s[:k]` on a string: a run-time panic (`none`) when
`k > len(s)`, otherwise the first `k` bytes. A cut inside a multi-byte rune would leave
a partial encoding, which this embedding drops. -/
def sliceTo (s : String) (k : Nat) : Option String :=
  if k ≤ len s then some ⟨takeBytes k s.data⟩ else none

/-! ## The generators -/

/-- The type `testResults` (lines 17-21). -/
structure testResults where
  expectedResult : Bool
  actualResult : Bool
  testedPassword : String
  deriving DecidableEq, Repr

/-- The inner loops `for i := 0; i < count; i++ { xs = append(xs, pick(rand.Intn(k))) }`.
The first argument is the number of iterations left. -/
def appendDraws (pick : Nat → String) (k : Nat) : Nat → List String → Src → List String × Src
  | 0, xs, g => (xs, g)
  | n + 1, xs, g => appendDraws pick k n (xs ++ [pick (Intn k g).1]) (Intn k g).2

/-- The inner loops `for i := 0; i < count; i++ { xs = append(xs, "") }` of the
generators that leave a class out. -/
def appendEmpty : Nat → List String → List String
  | 0, xs => xs
  | n + 1, xs => appendEmpty n (xs ++ [""])

/-- The expression `strconv.Itoa(rand.Intn(10))` as a function of the draw. -/
def pickNumber (r : Nat) : String := Itoa r

/-- The expression `string(rune(rand.Intn(26)+97))` as a function of the draw. -/
def pickLower (r : Nat) : String := String.singleton (Char.ofNat (r + 97))

/-- The expression `string(rune(rand.Intn(26)+65))` as a function of the draw. -/
def pickUpper (r : Nat) : String := String.singleton (Char.ofNat (r + 65))

/-- The expression `legalChars[rand.Intn(len(legalChars))]` as a function of the draw;
the index is in range because the draw is below `len(legalChars)`. -/
def pickLegal (r : Nat) : String := legalChars.getD r ""

/-- The expression `illegalChars[rand.Intn(len(illegalChars))]` as a function of the
draw; the index is in range because the draw is below `len(illegalChars)`. -/
def pickIllegal (r : Nat) : String := illegalChars.getD r ""

/-- One iteration of the loop of `shouldFailIllegalChars` (lines 80-127): the result
sent on the channel and the advanced random source. -/
def shouldFailIllegalCharsCase (g : Src) : Option testResults × Src :=
  let numberCount := (Intn 25 g).1
  let nums := appendDraws pickNumber 10 numberCount (makeStrings numberCount) (Intn 25 g).2
  let lowerCharCount := (Intn 25 nums.2).1
  let lowerChars :=
    appendDraws pickLower 26 lowerCharCount (makeStrings lowerCharCount) (Intn 25 nums.2).2
  let upperCharsCount := (Intn 25 lowerChars.2).1
  let upperChars :=
    appendDraws pickUpper 26 upperCharsCount (makeStrings upperCharsCount)
      (Intn 25 lowerChars.2).2
  let legalSpecialCharsCount := (Intn 25 upperChars.2).1
  let legalSpecialChars :=
    appendDraws pickLegal legalChars.length legalSpecialCharsCount
      (makeStrings legalSpecialCharsCount) (Intn 25 upperChars.2).2
  let illegalSpecialCharsCount := (Intn 25 legalSpecialChars.2).1 + 1
  let illegalSpecialChars :=
    appendDraws pickIllegal illegalChars.length illegalSpecialCharsCount
      (makeStrings illegalSpecialCharsCount) (Intn 25 legalSpecialChars.2).2
  let generatedPassword :=
    Join legalSpecialChars.1 "" ++ Join illegalSpecialChars.1 "" ++ Join lowerChars.1 ""
      ++ Join upperChars.1 "" ++ Join nums.1 ""
  let shuff := Shuffle generatedPassword.data illegalSpecialChars.2
  let generatedPassword : String := ⟨shuff.1⟩
  (some { expectedResult := false
          actualResult := runRegexp generatedPassword
          testedPassword := generatedPassword }, shuff.2)

/-- One iteration of the loop of `shouldPass` (lines 148-191). -/
def shouldPassCase (g : Src) : Option testResults × Src :=
  let numberCount := (Intn 25 g).1 + 2
  let nums := appendDraws pickNumber 10 numberCount (makeStrings numberCount) (Intn 25 g).2
  let lowerCharCount := (Intn 23 nums.2).1 + 2
  let lowerChars :=
    appendDraws pickLower 26 lowerCharCount (makeStrings lowerCharCount) (Intn 23 nums.2).2
  let upperCharsCount := (Intn 23 lowerChars.2).1 + 2
  let upperChars :=
    appendDraws pickUpper 26 upperCharsCount (makeStrings upperCharsCount)
      (Intn 23 lowerChars.2).2
  let legalSpecialCharsCount := (Intn 23 upperChars.2).1 + 2
  let legalSpecialChars :=
    appendDraws pickLegal legalChars.length legalSpecialCharsCount
      (makeStrings legalSpecialCharsCount) (Intn 23 upperChars.2).2
  let generatedPassword :=
    Join legalSpecialChars.1 "" ++ Join lowerChars.1 "" ++ Join upperChars.1 ""
      ++ Join nums.1 ""
  let shuff := Shuffle generatedPassword.data legalSpecialChars.2
  let generatedPassword : String := ⟨shuff.1⟩
  let pass := runRegexp generatedPassword
  let results : testResults :=
    { expectedResult := true, actualResult := pass, testedPassword := generatedPassword }
  (some results, shuff.2)

/-- One iteration of the loop of `shouldFailSpecialChars` (lines 211-251). -/
def shouldFailSpecialCharsCase (g : Src) : Option testResults × Src :=
  let numberCount := (Intn 25 g).1 + 2
  let nums := appendDraws pickNumber 10 numberCount (makeStrings numberCount) (Intn 25 g).2
  let lowerCharCount := (Intn 23 nums.2).1 + 2
  let lowerChars :=
    appendDraws pickLower 26 lowerCharCount (makeStrings lowerCharCount) (Intn 23 nums.2).2
  let upperCharsCount := (Intn 23 lowerChars.2).1 + 2
  let upperChars :=
    appendDraws pickUpper 26 upperCharsCount (makeStrings upperCharsCount)
      (Intn 23 lowerChars.2).2
  let legalSpecialCharsCount := (Intn 23 upperChars.2).1 + 2
  let legalSpecialChars :=
    appendEmpty legalSpecialCharsCount (makeStrings legalSpecialCharsCount)
  let generatedPassword :=
    Join legalSpecialChars "" ++ Join lowerChars.1 "" ++ Join upperChars.1 ""
      ++ Join nums.1 ""
  let shuff := Shuffle generatedPassword.data (Intn 23 upperChars.2).2
  let generatedPassword : String := ⟨shuff.1⟩
  (some { expectedResult := false
          actualResult := runRegexp generatedPassword
          testedPassword := generatedPassword }, shuff.2)

/-- One iteration of the loop of `shouldFailNumber` (lines 271-311). -/
def shouldFailNumberCase (g : Src) : Option testResults × Src :=
  let numberCount := (Intn 25 g).1 + 2
  let nums := appendEmpty numberCount (makeStrings numberCount)
  let lowerCharCount := (Intn 23 (Intn 25 g).2).1 + 2
  let lowerChars :=
    appendDraws pickLower 26 lowerCharCount (makeStrings lowerCharCount)
      (Intn 23 (Intn 25 g).2).2
  let upperCharsCount := (Intn 23 lowerChars.2).1 + 2
  let upperChars :=
    appendDraws pickUpper 26 upperCharsCount (makeStrings upperCharsCount)
      (Intn 23 lowerChars.2).2
  let legalSpecialCharsCount := (Intn 23 upperChars.2).1 + 2
  let legalSpecialChars :=
    appendDraws pickLegal legalChars.length legalSpecialCharsCount
      (makeStrings legalSpecialCharsCount) (Intn 23 upperChars.2).2
  let generatedPassword :=
    Join legalSpecialChars.1 "" ++ Join lowerChars.1 "" ++ Join upperChars.1 ""
      ++ Join nums ""
  let shuff := Shuffle generatedPassword.data legalSpecialChars.2
  let generatedPassword : String := ⟨shuff.1⟩
  (some { expectedResult := false
          actualResult := runRegexp generatedPassword
          testedPassword := generatedPassword }, shuff.2)

/-- One iteration of the loop of `shouldFailLower` (lines 330-370). -/
def shouldFailLowerCase (g : Src) : Option testResults × Src :=
  let numberCount := (Intn 25 g).1 + 2
  let nums := appendDraws pickNumber 10 numberCount (makeStrings numberCount) (Intn 25 g).2
  let lowerCharCount := (Intn 23 nums.2).1 + 2
  let lowerChars := appendEmpty lowerCharCount (makeStrings lowerCharCount)
  let upperCharsCount := (Intn 23 (Intn 23 nums.2).2).1 + 2
  let upperChars :=
    appendDraws pickUpper 26 upperCharsCount (makeStrings upperCharsCount)
      (Intn 23 (Intn 23 nums.2).2).2
  let legalSpecialCharsCount := (Intn 23 upperChars.2).1 + 2
  let legalSpecialChars :=
    appendDraws pickLegal legalChars.length legalSpecialCharsCount
      (makeStrings legalSpecialCharsCount) (Intn 23 upperChars.2).2
  let generatedPassword :=
    Join legalSpecialChars.1 "" ++ Join lowerChars "" ++ Join upperChars.1 ""
      ++ Join nums.1 ""
  let shuff := Shuffle generatedPassword.data legalSpecialChars.2
  let generatedPassword : String := ⟨shuff.1⟩
  (some { expectedResult := false
          actualResult := runRegexp generatedPassword
          testedPassword := generatedPassword }, shuff.2)

/-- One iteration of the loop of `shouldFailUpper` (lines 390-430). -/
def shouldFailUpperCase (g : Src) : Option testResults × Src :=
  let numberCount := (Intn 25 g).1 + 2
  let nums := appendDraws pickNumber 10 numberCount (makeStrings numberCount) (Intn 25 g).2
  let lowerCharCount := (Intn 23 nums.2).1 + 2
  let lowerChars :=
    appendDraws pickLower 26 lowerCharCount (makeStrings lowerCharCount) (Intn 23 nums.2).2
  let upperCharsCount := (Intn 23 lowerChars.2).1 + 2
  let upperChars := appendEmpty upperCharsCount (makeStrings upperCharsCount)
  let legalSpecialCharsCount := (Intn 23 (Intn 23 lowerChars.2).2).1 + 2
  let legalSpecialChars :=
    appendDraws pickLegal legalChars.length legalSpecialCharsCount
      (makeStrings legalSpecialCharsCount) (Intn 23 (Intn 23 lowerChars.2).2).2
  let generatedPassword :=
    Join legalSpecialChars.1 "" ++ Join lowerChars.1 "" ++ Join upperChars ""
      ++ Join nums.1 ""
  let shuff := Shuffle generatedPassword.data legalSpecialChars.2
  let generatedPassword : String := ⟨shuff.1⟩
  (some { expectedResult := false
          actualResult := runRegexp generatedPassword
          testedPassword := generatedPassword }, shuff.2)

/-- Lines 449-483 of `shouldFailLength`: the shuffled string before truncation and the
advanced random source. -/
def shouldFailLengthShuffled (g : Src) : String × Src :=
  let numberCount := (Intn 25 g).1 + 2
  let nums := appendDraws pickNumber 10 numberCount (makeStrings numberCount) (Intn 25 g).2
  let lowerCharCount := (Intn 23 nums.2).1 + 2
  let lowerChars :=
    appendDraws pickLower 26 lowerCharCount (makeStrings lowerCharCount) (Intn 23 nums.2).2
  let upperCharsCount := (Intn 23 lowerChars.2).1 + 2
  let upperChars :=
    appendDraws pickUpper 26 upperCharsCount (makeStrings upperCharsCount)
      (Intn 23 lowerChars.2).2
  let legalSpecialCharsCount := (Intn 23 upperChars.2).1 + 2
  let legalSpecialChars :=
    appendDraws pickLegal legalChars.length legalSpecialCharsCount
      (makeStrings legalSpecialCharsCount) (Intn 23 upperChars.2).2
  let generatedPassword :=
    Join legalSpecialChars.1 "" ++ Join lowerChars.1 "" ++ Join upperChars.1 ""
      ++ Join nums.1 ""
  let shuff := Shuffle generatedPassword.data legalSpecialChars.2
  (⟨shuff.1⟩, shuff.2)

/-- The cut length `rand.Intn(7)+1` of line 485, as drawn after the shuffle. -/
def shouldFailLengthCut (g : Src) : Nat :=
  (Intn 7 (shouldFailLengthShuffled g).2).1 + 1

/-- One iteration of the loop of `shouldFailLength` (lines 449-491); `none` is the
run-time panic of an out-of-range slice expression on line 485. -/
def shouldFailLengthCase (g : Src) : Option testResults × Src :=
  let shuffled := shouldFailLengthShuffled g
  match sliceTo shuffled.1 (shouldFailLengthCut g) with
  | none => (none, (Intn 7 shuffled.2).2)
  | some generatedPassword =>
    (some { expectedResult := false
            actualResult := runRegexp generatedPassword
            testedPassword := generatedPassword }, (Intn 7 shuffled.2).2)

/-- The outer loop `for i := 0; i < testsToRun; i++ { ...; c <- result }` shared by the
seven generators: the results sent on the channel, in order. The first argument is
the number of iterations left; an iteration that panics sends nothing more. Progress
messages are not part of the embedding. -/
def sendLoop (body : Src → Option testResults × Src) : Nat → Src → List testResults
  | 0, _ => []
  | n + 1, g =>
    match (body g).1 with
    | none => []
    | some r => r :: sendLoop body n (body g).2

/-- The seven generator functions. -/
inductive Generator where
  | shouldPass
  | shouldFailSpecialChars
  | shouldFailIllegalChars
  | shouldFailNumber
  | shouldFailUpper
  | shouldFailLower
  | shouldFailLength
  deriving DecidableEq, Repr

/-- The loop body of each generator. -/
def Generator.body : Generator → Src → Option testResults × Src
  | .shouldPass => shouldPassCase
  | .shouldFailSpecialChars => shouldFailSpecialCharsCase
  | .shouldFailIllegalChars => shouldFailIllegalCharsCase
  | .shouldFailNumber => shouldFailNumberCase
  | .shouldFailUpper => shouldFailUpperCase
  | .shouldFailLower => shouldFailLowerCase
  | .shouldFailLength => shouldFailLengthCase

/-- The results a generator sends when run with the global `testsToRun`; a
non-positive `testsToRun` makes the loop condition false at once. -/
def Generator.run (gen : Generator) (testsToRun : Int) (g : Src) : List testResults :=
  sendLoop gen.body testsToRun.toNat g

/-- The function `shouldPass` (lines 142-203). -/
def shouldPass (testsToRun : Int) (g : Src) : List testResults :=
  Generator.shouldPass.run testsToRun g

/-- The function `shouldFailSpecialChars` (lines 205-263). -/
def shouldFailSpecialChars (testsToRun : Int) (g : Src) : List testResults :=
  Generator.shouldFailSpecialChars.run testsToRun g

/-- The function `shouldFailIllegalChars` (lines 74-140). -/
def shouldFailIllegalChars (testsToRun : Int) (g : Src) : List testResults :=
  Generator.shouldFailIllegalChars.run testsToRun g

/-- The function `shouldFailNumber` (lines 265-322). -/
def shouldFailNumber (testsToRun : Int) (g : Src) : List testResults :=
  Generator.shouldFailNumber.run testsToRun g

/-- The function `shouldFailUpper` (lines 384-441). -/
def shouldFailUpper (testsToRun : Int) (g : Src) : List testResults :=
  Generator.shouldFailUpper.run testsToRun g

/-- The function `shouldFailLower` (lines 324-382). -/
def shouldFailLower (testsToRun : Int) (g : Src) : List testResults :=
  Generator.shouldFailLower.run testsToRun g

/-- The function `shouldFailLength` (lines 443-502). -/
def shouldFailLength (testsToRun : Int) (g : Src) : List testResults :=
  Generator.shouldFailLength.run testsToRun g

/-! ## `main`: the generation run (lines 558-653) -/

/-- Go's `int` on a 64-bit platform: the value an arithmetic result wraps around to. -/
def wrapInt (x : Int) : Int := (x + 2 ^ 63) % 2 ^ 64 - 2 ^ 63

/-- The global `runShouldPass` (line 23): no flag is bound to it, so it keeps the zero
value `false`. -/
def runShouldPass : Bool := false

/-- The globals set by `flag.Parse()` (lines 506-519) that the generation run reads,
and the local `runAllTests`. -/
structure Config where
  doTests : Bool
  doEvals : Bool
  showProgress : Bool
  runShouldFailSpecialChars : Bool
  runShouldFailIllegalChars : Bool
  runShouldFailLength : Bool
  runShouldFailLower : Bool
  runShouldFailUpper : Bool
  runShouldFailNumber : Bool
  exitOnFail : Bool
  testsToRun : Int
  runAllTests : Bool

/-- The goroutines started so far and the counter `tests`. -/
structure Started where
  goroutines : List Generator
  tests : Int

/-- One block `if cond { go gen(c); tests += 1 }`. -/
def start (cond : Bool) (gen : Generator) (s : Started) : Started :=
  if cond then { goroutines := s.goroutines ++ [gen], tests := s.tests + 1 } else s

/-- Lines 560 and 583-611: the generators started, in order, and the value of `tests`. -/
def startTests (cfg : Config) : Started :=
  let s : Started := { goroutines := [], tests := 0 }
  let s := start (runShouldPass || cfg.runAllTests) .shouldPass s
  let s := start (cfg.runShouldFailSpecialChars || cfg.runAllTests) .shouldFailSpecialChars s
  let s := start (cfg.runShouldFailIllegalChars || cfg.runAllTests) .shouldFailIllegalChars s
  let s := start (cfg.runShouldFailNumber || cfg.runAllTests) .shouldFailNumber s
  let s := start (cfg.runShouldFailUpper || cfg.runAllTests) .shouldFailUpper s
  let s := start (cfg.runShouldFailLower || cfg.runAllTests) .shouldFailLower s
  let s := start (cfg.runShouldFailLength || cfg.runAllTests) .shouldFailLength s
  s

/-- The call `fmt.Sprintf("%t", b)`. -/
def sprintBool (b : Bool) : String := if b then "true" else "false"

/-- The header record of line 578. -/
def headerRow : List String := ["password", "expected", "actual"]

/-- The record built on line 616. -/
def row (result : testResults) : List String :=
  [result.testedPassword, sprintBool result.expectedResult, sprintBool result.actualResult]

/-- How the loop of lines 614-634 ends: it runs to completion, it calls `os.Exit`, or
it waits for ever on a channel on which nothing more is sent. -/
inductive LoopEnd where
  | completed
  | exited (status : Nat)
  | blocked
  deriving DecidableEq, Repr

/-- The loop `for i := 0; i < testsToRun*tests; i++` of lines 614-634. The first
argument is the number of iterations left, the second the values the channel delivers
to `main`, in order, the third the records handed to the writer so far. -/
def writeLoop (exitOnFail : Bool) :
    Nat → List testResults → List (List String) → List (List String) × LoopEnd
  | 0, _, written => (written, .completed)
  | _ + 1, [], written => (written, .blocked)
  | n + 1, result :: rest, written =>
    if exitOnFail && (result.expectedResult != result.actualResult) then
      (written ++ [row result], .exited 1)
    else writeLoop exitOnFail n rest (written ++ [row result])

/-- The number of iterations of the loop of line 614: the bound is the wrapped
product `testsToRun*tests`, and no iteration runs when it is not positive. -/
def loopBound (cfg : Config) : Nat :=
  (wrapInt (cfg.testsToRun * (startTests cfg).tests)).toNat

/-- The block `if doTests { ... }`: the records handed to the writer, the header
first, given the values the channel delivers; `none` when `doTests` is not set. -/
def runTests (cfg : Config) (received : List testResults) :
    Option (List (List String) × LoopEnd) :=
  if cfg.doTests then some (writeLoop cfg.exitOnFail (loopBound cfg) received [headerRow])
  else none

/-! ## `main`: the evaluation run (lines 655-738) -/

/-- The errors `(*csv.Reader).Read` returns on a file of well-quoted records. -/
inductive ReadErr where
  | nil
  | EOF
  | ErrFieldCount
  deriving DecidableEq, Repr

/-- A `csv.Reader`: the field `FieldsPerRecord` (0 after `csv.NewReader`) and the
records of the file that are still to be read. -/
structure Reader where
  FieldsPerRecord : Int
  records : List (List String)

/-- The method `(*csv.Reader).Read`: the next record; the first record read fixes the
number of fields, and a later record with another number of fields is returned
together with `ErrFieldCount`. -/
def Reader.Read (r : Reader) : List String × ReadErr × Reader :=
  match r.records with
  | [] => ([], .EOF, r)
  | record :: rest =>
    if 0 < r.FieldsPerRecord then
      if (record.length : Int) ≠ r.FieldsPerRecord then
        (record, .ErrFieldCount, { r with records := rest })
      else (record, .nil, { r with records := rest })
    else if r.FieldsPerRecord = 0 then
      (record, .nil, { FieldsPerRecord := record.length, records := rest })
    else (record, .nil, { r with records := rest })

/-- How the loop of lines 683-698 ends. -/
inductive LoopResult where
  /-- A `log.Fatal` on line 696. -/
  | fatal
  /-- A slice or index expression of lines 684-686 is out of range. -/
  | rangePanic
  /-- The reader returned `io.EOF`; the counters. -/
  | done (failedTests totalOfTests : Nat)
  deriving DecidableEq, Repr

/-- The loop `for err != io.EOF` of lines 683-698. The first argument is fuel: every
iteration reads one record, so one more than the number of records left is enough.
`ToLower` stands for `strings.ToLower`. -/
def evalLoop (ToLower : String → String) :
    Nat → Reader → List String → ReadErr → Nat → Nat → Option LoopResult
  | 0, _, _, _, _, _ => none
  | fuel + 1, reader, line, err, failedTests, totalOfTests =>
    if err = .EOF then some (.done failedTests totalOfTests)
    else if line.length < 2 then some .rangePanic
    else
      let expected := ToLower (line.getD (line.length - 2) "")
      let actual := ToLower (line.getD (line.length - 1) "")
      let failedTests := if expected != actual then failedTests + 1 else failedTests
      let totalOfTests := totalOfTests + 1
      let next := reader.Read
      if next.2.1 ≠ .nil ∧ next.2.1 ≠ .EOF then some .fatal
      else evalLoop ToLower fuel next.2.2 next.1 next.2.1 failedTests totalOfTests

/-- How the evaluation run ends. -/
inductive Outcome where
  /-- A `log.Fatal` (lines 673, 677, 696): the evaluation is aborted with status 1. -/
  | fatal
  /-- A run-time panic in the loop body (lines 684-686). -/
  | rangePanic
  /-- The total was printed (line 702) and the division of line 703 panicked. -/
  | dividePanic (totalOfTests : Nat)
  /-- The summary was printed and `os.Exit(status)` was called on line 737: the total,
  the number of passing tests, the pass percentage and the status. -/
  | exit (totalOfTests passing percent status : Nat)
  deriving DecidableEq, Repr

/-- The block `if doEvals { ... }` on the records of `results.csv`; `none` only if the
fuel of the loop ran out. The percentage is
`float32((totalOfTests-failedTests)/totalOfTests)*100` with the integer quotient. -/
def evaluate (ToLower : String → String) (file : List (List String)) : Option Outcome :=
  let reader : Reader := { FieldsPerRecord := 0, records := file }
  let first := reader.Read
  if first.2.1 ≠ .nil then some .fatal
  else
    let second := first.2.2.Read
    if second.2.1 ≠ .nil ∧ second.2.1 ≠ .EOF then some .fatal
    else
      match evalLoop ToLower (file.length + 1) second.2.2 second.1 second.2.1 0 0 with
      | none => none
      | some .fatal => some .fatal
      | some .rangePanic => some .rangePanic
      | some (.done failedTests totalOfTests) =>
        if totalOfTests = 0 then some (.dividePanic totalOfTests)
        else
          some (.exit totalOfTests (totalOfTests - failedTests)
            ((totalOfTests - failedTests) / totalOfTests * 100) failedTests)

/-- The function `strings.ToLower` on ASCII text. -/
def asciiToLower (s : String) : String := ⟨s.data.map Char.toLower⟩

/-- Whether the last two fields of a record differ after lower-casing. -/
def mismatch (ToLower : String → String) (record : List String) : Bool :=
  ToLower (record.getD (record.length - 2) "") != ToLower (record.getD (record.length - 1) "")

/-- Lines 668-698 of the evaluation run alone: the two initial reads and the counting
loop, without the summary. -/
def countTests (ToLower : String → String) (file : List (List String)) : Option LoopResult :=
  let reader : Reader := { FieldsPerRecord := 0, records := file }
  let first := reader.Read
  if first.2.1 ≠ .nil then some .fatal
  else
    let second := first.2.2.Read
    if second.2.1 ≠ .nil ∧ second.2.1 ≠ .EOF then some .fatal
    else evalLoop ToLower (file.length + 1) second.2.2 second.1 second.2.1 0 0

/-- The value printed as pass percentage on line 703,
`float32((totalOfTests-failedTests)/totalOfTests)*100`, for `totalOfTests` not zero: the
quotient is an integer quotient of non-negative integers, so it is 0 or 1, and both the
conversion to `float32` and the product with 100 are exact. -/
def passPercent (totalOfTests failedTests : Nat) : Nat :=
  (totalOfTests - failedTests) / totalOfTests * 100

/-- Lines 699-737 of the evaluation run: the summary printed from the counters and the
call of `os.Exit`. -/
def summary : LoopResult → Outcome
  | .fatal => .fatal
  | .rangePanic => .rangePanic
  | .done failedTests totalOfTests =>
    if totalOfTests = 0 then .dividePanic totalOfTests
    else .exit totalOfTests (totalOfTests - failedTests)
      (passPercent totalOfTests failedTests) failedTests

/-- Whether a result records a verdict other than the expected one. -/
def disagrees (r : testResults) : Bool := r.expectedResult != r.actualResult

/-- The string obtained by inserting the character `c` into `p` before position `i`. -/
def insertRune (p : String) (i : Nat) (c : Char) : String :=
  ⟨p.data.take i ++ c :: p.data.drop i⟩

/-- The generators `main` starts: those of `startTests` inside the block
`if doTests { ... }` (line 558), none outside it. -/
def mainStarted (cfg : Config) : List Generator :=
  if cfg.doTests then (startTests cfg).goroutines else []

/-- The individual toggle of each generator: the global tested, next to `runAllTests`,
by the `if` that starts it (lines 584-608). -/
def Generator.toggle (cfg : Config) : Generator → Bool
  | .shouldPass => runShouldPass
  | .shouldFailSpecialChars => cfg.runShouldFailSpecialChars
  | .shouldFailIllegalChars => cfg.runShouldFailIllegalChars
  | .shouldFailNumber => cfg.runShouldFailNumber
  | .shouldFailUpper => cfg.runShouldFailUpper
  | .shouldFailLower => cfg.runShouldFailLower
  | .shouldFailLength => cfg.runShouldFailLength

/-- A generation run with `-run-tests` and no category flag. -/
def noCategoryConfig : Config :=
  { doTests := true, doEvals := true, showProgress := false
    runShouldFailSpecialChars := false, runShouldFailIllegalChars := false
    runShouldFailLength := false, runShouldFailLower := false
    runShouldFailUpper := false, runShouldFailNumber := false
    exitOnFail := false, testsToRun := 100, runAllTests := false }

/-- A run of all seven generators, without fail-fast, with `-run 4611686018427387904`
(that is `2 ^ 62`). -/
def overflowConfig : Config :=
  { doTests := true, doEvals := false, showProgress := false
    runShouldFailSpecialChars := false, runShouldFailIllegalChars := false
    runShouldFailLength := false, runShouldFailLower := false
    runShouldFailUpper := false, runShouldFailNumber := false
    exitOnFail := false, testsToRun := 2 ^ 62, runAllTests := true }

/-- The run of `overflowConfig` with fail-fast. -/
def overflowFailFastConfig : Config := { overflowConfig with exitOnFail := true }

/-- A run of the uppercase and the length generators, twice each, with fail-fast. -/
def failFastConfig : Config :=
  { doTests := true, doEvals := false, showProgress := false
    runShouldFailSpecialChars := false, runShouldFailIllegalChars := false
    runShouldFailLength := true, runShouldFailLower := false
    runShouldFailUpper := true, runShouldFailNumber := false
    exitOnFail := true, testsToRun := 2, runAllTests := false }

/-- The same run without fail-fast. -/
def plainConfig : Config := { failFastConfig with exitOnFail := false }

/-! ## Auxiliary notions for the proofs about the generators -/

/-- The outcomes of `n` successive draws `rand.Intn(k)`. -/
def drawList (k : Nat) : Nat → Src → List Nat
  | 0, _ => []
  | n + 1, g => (Intn k g).1 :: drawList k n (Intn k g).2

/-- The characters contributed by a run of `n` draws through `pick`. -/
def runeRun (pick : Nat → String) (k n : Nat) (g : Src) : List Char :=
  ((drawList k n g).map (fun r => (pick r).data)).flatten

/-- An uppercase letter that belongs to no other class and is a single byte. -/
def onlyUpper (c : Char) : Bool :=
  isUpper c && !isLower c && !isDigit c && !isLegalSpecial c && !isIllegalSpecial c
    && c.utf8Size == 1

/-- A lowercase letter that belongs to no other class and is a single byte. -/
def onlyLower (c : Char) : Bool :=
  !isUpper c && isLower c && !isDigit c && !isLegalSpecial c && !isIllegalSpecial c
    && c.utf8Size == 1

/-- A digit that belongs to no other class and is a single byte. -/
def onlyDigit (c : Char) : Bool :=
  !isUpper c && !isLower c && isDigit c && !isLegalSpecial c && !isIllegalSpecial c
    && c.utf8Size == 1

/-- A legal special that belongs to no other class and is a single byte. -/
def onlyLegalSpecial (c : Char) : Bool :=
  !isUpper c && !isLower c && !isDigit c && isLegalSpecial c && !isIllegalSpecial c
    && c.utf8Size == 1

/-- An illegal special that belongs to no other class and is a single byte. -/
def onlyIllegalSpecial (c : Char) : Bool :=
  !isUpper c && !isLower c && !isDigit c && !isLegalSpecial c && isIllegalSpecial c
    && c.utf8Size == 1

/-- The runes are a rearrangement of `nS` legal specials, `nI` illegal specials, `nL`
lowercase letters, `nU` uppercase letters and `nD` digits, each a single byte. -/
def Composed (p : List Char) (nU nL nD nS nI : Nat) : Prop :=
  ∃ S I L U D : List Char, p.Perm (S ++ I ++ L ++ U ++ D) ∧
    U.length = nU ∧ L.length = nL ∧ D.length = nD ∧ S.length = nS ∧ I.length = nI ∧
    U.all onlyUpper = true ∧ L.all onlyLower = true ∧ D.all onlyDigit = true ∧
    S.all onlyLegalSpecial = true ∧ I.all onlyIllegalSpecial = true

/-- A tape on which every raw outcome is `v`. -/
def constTape (v : Nat) : Src := fun _ => v

/-! ## Facts about the matcher -/

theorem oneChar_upper : OneChar passwordUpperLettersRegex.ends isUpper := by
  intro b
  refine ⟨rfl, fun x xs => ?_⟩
  simp [passwordUpperLettersRegex, Regex.ends, isUpper]

theorem oneChar_lower : OneChar passwordLowerLettersRegex.ends isLower := by
  intro b
  refine ⟨rfl, fun x xs => ?_⟩
  simp [passwordLowerLettersRegex, Regex.ends, isLower]

theorem oneChar_digit : OneChar passwordNumbersRegex.ends isDigit := by
  intro b
  refine ⟨rfl, fun x xs => ?_⟩
  simp [passwordNumbersRegex, Regex.ends, isDigit]

theorem isLegalSpecial_iff (c : Char) :
    isLegalSpecial c = true ↔
      c ∈ ['-', '_', '.', '!', '$', '|', '@', '%', '^', '&', '*'] := by
  simp [isLegalSpecial, legalChars, String.singleton, String.ext_iff]

theorem oneChar_special : OneChar passwordLegalSpecialRegex.ends isLegalSpecial := by
  intro b
  refine ⟨rfl, fun x xs => ?_⟩
  show (if x ∈ ['-', '_', '.', '!', '$', '|', '@', '%', '^', '&', '*'] then [(false, xs)]
    else []) = _
  by_cases h : isLegalSpecial x = true
  · rw [if_pos h, if_pos ((isLegalSpecial_iff x).1 h)]
  · rw [if_neg h, if_neg (fun hh => h ((isLegalSpecial_iff x).2 hh))]

theorem findFrom_oneChar {re : Regex} {p : Char → Bool} (h : OneChar re.ends p)
    (b : Bool) (l : List Char) : findFrom re b l ≠ [] ↔ ∃ c ∈ l, p c = true := by
  induction l generalizing b with
  | nil => simp [findFrom, matchAt, (h b).1]
  | cons x xs ih =>
    by_cases hx : p x = true
    · simp [findFrom, matchAt, (h b).2, hx]
    · simp [findFrom, matchAt, (h b).2, hx, ih]

theorem iterate_oneChar {f : Cursor → List Cursor} {p : Char → Bool} (h : OneChar f p)
    (n : Nat) (b : Bool) (l : List Char) :
    iterate f (n + 1) (b, l) =
      if n + 1 ≤ l.length ∧ (l.take (n + 1)).all p = true then [(false, l.drop (n + 1))]
      else [] := by
  induction n generalizing b l with
  | zero =>
    cases l with
    | nil => simp [iterate, (h b).1]
    | cons x xs =>
      by_cases hx : p x = true <;> simp [iterate, (h b).2, hx]
  | succ n ih =>
    cases l with
    | nil => simp [iterate, (h b).1]
    | cons x xs =>
      rw [iterate, (h b).2]
      by_cases hx : p x = true
      · simp only [hx, if_true, List.flatMap_cons, List.flatMap_nil, List.append_nil]
        rw [ih]
        simp [hx]
      · simp [hx]

theorem star_eot_oneChar {f : Cursor → List Cursor} {p : Char → Bool} (h : OneChar f p)
    (fuel : Nat) (b : Bool) (l : List Char) (hf : l.length < fuel) :
    (star f fuel (b, l)).flatMap Regex.eot.ends =
      if l.all p = true then [(b && l.isEmpty, [])] else [] := by
  induction l generalizing b fuel with
  | nil =>
    cases fuel with
    | zero => simp [star, Regex.ends]
    | succ fuel => simp [star, (h b).1, Regex.ends]
  | cons x xs ih =>
    cases fuel with
    | zero => simp at hf
    | succ fuel =>
      have hf2 : xs.length < fuel := by simpa using hf
      rw [star, (h b).2]
      by_cases hx : p x = true
      · simp only [hx, if_true, List.filter_cons, List.length_cons, Nat.lt_succ_self,
          decide_True, List.filter_nil, List.flatMap_cons, List.flatMap_nil,
          List.append_nil, List.flatMap_append, ih fuel false hf2]
        simp [Regex.ends, hx]
      · simp [hx, Regex.ends]

theorem oneChar_group : OneChar validPasswordGroup.ends isLegal := by
  intro b
  refine ⟨by simp [validPasswordGroup, Regex.ends], fun x xs => ?_⟩
  by_cases h1 : x = '-'
  · subst h1; rfl
  by_cases h2 : x = '_'
  · subst h2; rfl
  by_cases h3 : x = '.'
  · subst h3; rfl
  by_cases h4 : x = '!'
  · subst h4; rfl
  by_cases h5 : x = '$'
  · subst h5; rfl
  by_cases h6 : x = '|'
  · subst h6; rfl
  by_cases h7 : x = '@'
  · subst h7; rfl
  by_cases h8 : x = '%'
  · subst h8; rfl
  by_cases h9 : x = '^'
  · subst h9; rfl
  by_cases h10 : x = '&'
  · subst h10; rfl
  by_cases h11 : x = '*'
  · subst h11; rfl
  have hs : isLegalSpecial x = false := by
    rw [Bool.eq_false_iff]
    intro hh
    have := (isLegalSpecial_iff x).1 hh
    simp [h1, h2, h3, h4, h5, h6, h7, h8, h9, h10, h11] at this
  have e : isLegal x = (decide (65 ≤ x.toNat ∧ x.toNat ≤ 90) ||
      decide (97 ≤ x.toNat ∧ x.toNat ≤ 122) || decide (48 ≤ x.toNat ∧ x.toNat ≤ 57)) := by
    simp [isLegal, hs, isUpper, isLower, isDigit]
  rw [e]
  simp only [validPasswordGroup, Regex.ends, h1, h2, h3, h4, h5, h6, h7, h8, h9, h10, h11,
    if_false, List.append_nil]
  rw [show 'A'.toNat = 65 from rfl, show 'Z'.toNat = 90 from rfl,
    show 'a'.toNat = 97 from rfl, show 'z'.toNat = 122 from rfl,
    show '0'.toNat = 48 from rfl, show '9'.toNat = 57 from rfl]
  simp only [Bool.or_eq_true, decide_eq_true_eq]
  split_ifs <;> first | rfl | (exfalso; omega)

theorem ends_cat (a b : Regex) (st : Cursor) :
    (Regex.cat a b).ends st = (a.ends st).flatMap b.ends := by
  rw [Regex.ends]

theorem ends_atLeast (a : Regex) (n : Nat) (st : Cursor) :
    (Regex.atLeast a n).ends st =
      (iterate a.ends n st).flatMap (star a.ends (st.2.length + 1)) := by
  rw [Regex.ends]

theorem ends_bot (b : Bool) (l : List Char) :
    Regex.bot.ends (b, l) = if b = true then [(b, l)] else [] := by
  rw [Regex.ends]

theorem validPasswordRegex_ends (b : Bool) (l : List Char) :
    validPasswordRegex.ends (b, l) =
      if b = true ∧ 8 ≤ l.length ∧ l.all isLegal = true then [(false, [])] else [] := by
  have hall : l.all isLegal = ((l.take 8).all isLegal && (l.drop 8).all isLegal) := by
    rw [← List.all_append, List.take_append_drop]
  rw [validPasswordRegex, ends_cat, ends_bot]
  cases b with
  | false => simp
  | true =>
    rw [if_pos rfl, List.flatMap_cons, List.flatMap_nil, List.append_nil, ends_cat,
      ends_atLeast, iterate_oneChar oneChar_group 7 true l]
    by_cases h8 : 7 + 1 ≤ l.length ∧ (l.take (7 + 1)).all isLegal = true
    · rw [if_pos h8]
      simp only [List.flatMap_cons, List.flatMap_nil, List.append_nil]
      rw [star_eot_oneChar oneChar_group _ false _ (by simp; omega)]
      have h8a : (l.take 8).all isLegal = true := h8.2
      have h8l : 8 ≤ l.length := h8.1
      by_cases hd : (l.drop 8).all isLegal = true
      · rw [if_pos hd, if_pos ⟨by simp, h8l, by rw [hall, h8a, hd]; rfl⟩]
        simp
      · rw [if_neg hd, if_neg]
        rintro ⟨-, -, h⟩
        rw [hall, h8a] at h
        exact hd (by simpa using h)
    · rw [if_neg h8, if_neg]
      · simp
      · rintro ⟨-, hl, h⟩
        apply h8
        refine ⟨hl, ?_⟩
        rw [hall] at h
        simp only [Bool.and_eq_true] at h
        exact h.1

theorem matchAt_valid (b : Bool) (l : List Char) :
    matchAt validPasswordRegex (b, l) =
      if b = true ∧ 8 ≤ l.length ∧ l.all isLegal = true then some l else none := by
  rw [matchAt, validPasswordRegex_ends]
  by_cases h : b = true ∧ 8 ≤ l.length ∧ l.all isLegal = true
  · rw [if_pos h, if_pos h]
    simp
  · rw [if_neg h, if_neg h]

theorem findFrom_valid_false (l : List Char) : findFrom validPasswordRegex false l = [] := by
  induction l with
  | nil => simp [findFrom, matchAt_valid]
  | cons x xs ih => simp [findFrom, matchAt_valid, ih]

theorem findFrom_valid (l : List Char) :
    findFrom validPasswordRegex true l ≠ [] ↔ 8 ≤ l.length ∧ l.all isLegal = true := by
  cases l with
  | nil => simp [findFrom, matchAt_valid]
  | cons x xs =>
    by_cases h : 8 ≤ (x :: xs).length ∧ (x :: xs).all isLegal = true
    · have h2 : (true = true ∧ 8 ≤ (x :: xs).length ∧ (x :: xs).all isLegal = true) :=
        ⟨rfl, h⟩
      rw [findFrom, matchAt_valid, if_pos h2]
      simp only [ne_eq, reduceCtorEq, not_false_eq_true, true_iff]
      exact h
    · have h2 : ¬ (true = true ∧ 8 ≤ (x :: xs).length ∧ (x :: xs).all isLegal = true) :=
        fun hh => h hh.2
      rw [findFrom, matchAt_valid, if_neg h2]
      simp only [findFrom_valid_false, ne_eq, not_true_eq_false, false_iff]
      exact h

theorem findString_ne_empty (re : Regex) (s : String) :
    (FindString re s != "") = true ↔ findFrom re true s.data ≠ [] := by
  simp [FindString, bne_iff_ne, String.ext_iff]

/-- Characterisation of `runRegexp` on the characters of its argument. -/
theorem runRegexp_eq_true_iff (s : String) :
    runRegexp s = true ↔
      8 ≤ s.data.length ∧ (∀ c ∈ s.data, isLegal c = true) ∧
        (∃ c ∈ s.data, isUpper c = true) ∧ (∃ c ∈ s.data, isLower c = true) ∧
        (∃ c ∈ s.data, isDigit c = true) ∧ (∃ c ∈ s.data, isLegalSpecial c = true) := by
  have hne : (!(s == "")) = true ↔ s.data ≠ [] := by
    simp [String.ext_iff]
  simp only [runRegexp, Bool.and_eq_true, findString_ne_empty, hne,
    findFrom_oneChar oneChar_upper, findFrom_oneChar oneChar_lower,
    findFrom_oneChar oneChar_digit, findFrom_oneChar oneChar_special, findFrom_valid,
    List.all_eq_true]
  constructor
  · rintro ⟨⟨⟨⟨⟨hU, hL⟩, hD⟩, hS⟩, hlen, hall⟩, -⟩
    exact ⟨hlen, hall, hU, hL, hD, hS⟩
  · rintro ⟨hlen, hall, hU, hL, hD, hS⟩
    refine ⟨⟨⟨⟨⟨hU, hL⟩, hD⟩, hS⟩, hlen, hall⟩, ?_⟩
    intro h
    rw [h] at hlen
    simp at hlen


theorem Intn_lt {n : Nat} (h : 0 < n) (g : Src) : (Intn n g).1 < n :=
  Nat.mod_lt _ h

theorem drawList_length (k n : Nat) (g : Src) : (drawList k n g).length = n := by
  induction n generalizing g with
  | zero => rfl
  | succ n ih => simp [drawList, ih]

theorem drawList_lt {k : Nat} (hk : 0 < k) (n : Nat) (g : Src) :
    ∀ r ∈ drawList k n g, r < k := by
  induction n generalizing g with
  | zero => simp [drawList]
  | succ n ih =>
    intro r hr
    simp only [drawList, List.mem_cons] at hr
    rcases hr with rfl | hr
    · exact Intn_lt hk g
    · exact ih _ r hr

theorem appendDraws_fst (pick : Nat → String) (k n : Nat) (xs : List String) (g : Src) :
    (appendDraws pick k n xs g).1 = xs ++ (drawList k n g).map pick := by
  induction n generalizing xs g with
  | zero => simp [appendDraws, drawList]
  | succ n ih => simp [appendDraws, drawList, ih]

theorem appendEmpty_eq (n : Nat) (xs : List String) :
    appendEmpty n xs = xs ++ List.replicate n "" := by
  induction n generalizing xs with
  | zero => simp [appendEmpty]
  | succ n ih => simp [appendEmpty, ih, List.replicate_succ]

theorem Join_data (xs : List String) :
    (Join xs "").data = (xs.map String.data).flatten := by
  induction xs with
  | nil => rfl
  | cons x xs ih =>
    cases xs with
    | nil => simp [Join]
    | cons y ys =>
      rw [Join, String.data_append, String.data_append, ih]
      simp

theorem flatten_replicate_nil (n : Nat) :
    ((List.replicate n "").map String.data).flatten = [] := by
  induction n with
  | zero => rfl
  | succ n ih => simp [List.replicate_succ]

theorem Join_appendDraws (pick : Nat → String) (k n m : Nat) (g : Src) :
    (Join (appendDraws pick k n (makeStrings m) g).1 "").data = runeRun pick k n g := by
  rw [Join_data, appendDraws_fst, makeStrings, List.map_append, List.flatten_append,
    flatten_replicate_nil, List.nil_append, List.map_map]
  rfl

theorem Join_appendEmpty (n m : Nat) :
    (Join (appendEmpty n (makeStrings m)) "").data = [] := by
  rw [Join_data, appendEmpty_eq, makeStrings, List.map_append, List.flatten_append,
    flatten_replicate_nil, flatten_replicate_nil]
  rfl

theorem runeRun_length {pick : Nat → String} {k : Nat} (hk : 0 < k)
    (hp : ∀ r, r < k → (pick r).data.length = 1) (n : Nat) (g : Src) :
    (runeRun pick k n g).length = n := by
  have h : ∀ (ds : List Nat), (∀ r ∈ ds, r < k) →
      ((ds.map (fun r => (pick r).data)).flatten).length = ds.length := by
    intro ds
    induction ds with
    | nil => intro _; rfl
    | cons d ds ih =>
      intro hd
      simp only [List.map_cons, List.flatten_cons, List.length_append, List.length_cons]
      rw [ih (fun r hr => hd r (List.mem_cons_of_mem _ hr)), hp d (hd d (List.mem_cons_self _ _))]
      omega
  rw [runeRun, h _ (drawList_lt hk n g), drawList_length]

theorem runeRun_all {pick : Nat → String} {k : Nat} (hk : 0 < k) {q : Char → Bool}
    (hp : ∀ r, r < k → (pick r).data.all q = true) (n : Nat) (g : Src) :
    (runeRun pick k n g).all q = true := by
  have h : ∀ (ds : List Nat), (∀ r ∈ ds, r < k) →
      ((ds.map (fun r => (pick r).data)).flatten).all q = true := by
    intro ds
    induction ds with
    | nil => intro _; rfl
    | cons d ds ih =>
      intro hd
      simp only [List.map_cons, List.flatten_cons, List.all_append, Bool.and_eq_true]
      exact ⟨hp d (hd d (List.mem_cons_self _ _)),
        ih (fun r hr => hd r (List.mem_cons_of_mem _ hr))⟩
  exact h _ (drawList_lt hk n g)

theorem pickNumber_spec :
    ∀ r, r < 10 → (pickNumber r).data.length = 1 ∧ (pickNumber r).data.all onlyDigit = true := by
  decide

theorem pickLower_spec :
    ∀ r, r < 26 → (pickLower r).data.length = 1 ∧ (pickLower r).data.all onlyLower = true := by
  decide

theorem pickUpper_spec :
    ∀ r, r < 26 → (pickUpper r).data.length = 1 ∧ (pickUpper r).data.all onlyUpper = true := by
  decide

theorem pickLegal_spec :
    ∀ r, r < legalChars.length →
      (pickLegal r).data.length = 1 ∧ (pickLegal r).data.all onlyLegalSpecial = true := by
  decide

theorem pickIllegal_spec :
    ∀ r, r < illegalChars.length →
      (pickIllegal r).data.length = 1 ∧ (pickIllegal r).data.all onlyIllegalSpecial = true := by
  decide

theorem swapRunes_perm (xs : List Char) (i j : Nat) (hi : i < xs.length)
    (hj : j < xs.length) : (swapRunes xs i j).Perm xs := by
  have e : swapRunes xs i j = (xs.set i xs[j]).set j xs[i] := by
    simp [swapRunes, List.getD_eq_getElem, hi, hj]
  rw [e, List.perm_iff_count]
  intro a
  have hj2 : j < (xs.set i xs[j]).length := by simpa using hj
  rw [List.count_set _ _ _ _ hj2, List.count_set _ _ _ _ hi, List.getElem_set]
  have h1 : (xs[i] == a) = true → 0 < List.count a xs := by
    intro h
    have : xs[i] = a := by simpa using h
    exact this ▸ List.count_pos_iff.2 (List.getElem_mem _)
  have h2 : (xs[j] == a) = true → 0 < List.count a xs := by
    intro h
    have : xs[j] = a := by simpa using h
    exact this ▸ List.count_pos_iff.2 (List.getElem_mem _)
  by_cases hij : i = j
  · subst hij
    simp only [if_true]
    split_ifs with h <;> first | omega | (have h3 := h1 h; omega)
  · simp only [hij, if_false]
    split_ifs with ha hb <;> first | omega | (have h3 := h1 ha; omega)

theorem shuffleLoop_perm (i : Nat) (xs : List Char) (g : Src) (h : i < xs.length ∨ i = 0) :
    (shuffleLoop i xs g).1.Perm xs := by
  induction i generalizing xs g with
  | zero => exact List.Perm.refl _
  | succ i ih =>
    have hi : i + 1 < xs.length := by omega
    have hj : (Intn (i + 2) g).1 < xs.length :=
      Nat.lt_of_lt_of_le (Intn_lt (by omega) g) (by omega)
    have hp := swapRunes_perm xs (i + 1) (Intn (i + 2) g).1 hi hj
    rw [shuffleLoop]
    refine (ih _ _ (Or.inl ?_)).trans hp
    rw [hp.length_eq]
    omega

theorem Shuffle_perm (xs : List Char) (g : Src) : (Shuffle xs g).1.Perm xs := by
  apply shuffleLoop_perm
  cases xs with
  | nil => right; rfl
  | cons x xs => left; simp

theorem countP_eq_length_of_all {p q : Char → Bool} (hpq : ∀ c, q c = true → p c = true)
    {l : List Char} (h : l.all q = true) : l.countP p = l.length := by
  rw [List.countP_eq_length]
  intro c hc
  exact hpq c (List.all_eq_true.1 h c hc)

theorem countP_eq_zero_of_all {p q : Char → Bool} (hpq : ∀ c, q c = true → p c = false)
    {l : List Char} (h : l.all q = true) : l.countP p = 0 := by
  rw [List.countP_eq_zero]
  intro c hc
  rw [hpq c (List.all_eq_true.1 h c hc)]
  simp

theorem Composed.countP_isUpper {p : List Char} {nU nL nD nS nI : Nat}
    (h : Composed p nU nL nD nS nI) : p.countP isUpper = nU := by
  obtain ⟨S, I, L, U, D, hp, hU, hL, hD, hS, hI, aU, aL, aD, aS, aI⟩ := h
  rw [hp.countP_eq, List.countP_append, List.countP_append, List.countP_append,
    List.countP_append,
    countP_eq_length_of_all (q := onlyUpper) (by intro c; simp [onlyUpper]; tauto) aU,
    countP_eq_zero_of_all (q := onlyLower) (by intro c; simp [onlyLower]; tauto) aL,
    countP_eq_zero_of_all (q := onlyDigit) (by intro c; simp [onlyDigit]; tauto) aD,
    countP_eq_zero_of_all (q := onlyLegalSpecial) (by intro c; simp [onlyLegalSpecial]; tauto) aS,
    countP_eq_zero_of_all (q := onlyIllegalSpecial) (by intro c; simp [onlyIllegalSpecial]; tauto) aI]
  omega

theorem Composed.countP_isLower {p : List Char} {nU nL nD nS nI : Nat}
    (h : Composed p nU nL nD nS nI) : p.countP isLower = nL := by
  obtain ⟨S, I, L, U, D, hp, hU, hL, hD, hS, hI, aU, aL, aD, aS, aI⟩ := h
  rw [hp.countP_eq, List.countP_append, List.countP_append, List.countP_append,
    List.countP_append,
    countP_eq_zero_of_all (q := onlyUpper) (by intro c; simp [onlyUpper]; tauto) aU,
    countP_eq_length_of_all (q := onlyLower) (by intro c; simp [onlyLower]; tauto) aL,
    countP_eq_zero_of_all (q := onlyDigit) (by intro c; simp [onlyDigit]; tauto) aD,
    countP_eq_zero_of_all (q := onlyLegalSpecial) (by intro c; simp [onlyLegalSpecial]; tauto) aS,
    countP_eq_zero_of_all (q := onlyIllegalSpecial) (by intro c; simp [onlyIllegalSpecial]; tauto) aI]
  omega

theorem Composed.countP_isDigit {p : List Char} {nU nL nD nS nI : Nat}
    (h : Composed p nU nL nD nS nI) : p.countP isDigit = nD := by
  obtain ⟨S, I, L, U, D, hp, hU, hL, hD, hS, hI, aU, aL, aD, aS, aI⟩ := h
  rw [hp.countP_eq, List.countP_append, List.countP_append, List.countP_append,
    List.countP_append,
    countP_eq_zero_of_all (q := onlyUpper) (by intro c; simp [onlyUpper]; tauto) aU,
    countP_eq_zero_of_all (q := onlyLower) (by intro c; simp [onlyLower]; tauto) aL,
    countP_eq_length_of_all (q := onlyDigit) (by intro c; simp [onlyDigit]; tauto) aD,
    countP_eq_zero_of_all (q := onlyLegalSpecial) (by intro c; simp [onlyLegalSpecial]; tauto) aS,
    countP_eq_zero_of_all (q := onlyIllegalSpecial) (by intro c; simp [onlyIllegalSpecial]; tauto) aI]
  omega

theorem Composed.countP_isLegalSpecial {p : List Char} {nU nL nD nS nI : Nat}
    (h : Composed p nU nL nD nS nI) : p.countP isLegalSpecial = nS := by
  obtain ⟨S, I, L, U, D, hp, hU, hL, hD, hS, hI, aU, aL, aD, aS, aI⟩ := h
  rw [hp.countP_eq, List.countP_append, List.countP_append, List.countP_append,
    List.countP_append,
    countP_eq_zero_of_all (q := onlyUpper) (by intro c; simp [onlyUpper]; tauto) aU,
    countP_eq_zero_of_all (q := onlyLower) (by intro c; simp [onlyLower]; tauto) aL,
    countP_eq_zero_of_all (q := onlyDigit) (by intro c; simp [onlyDigit]; tauto) aD,
    countP_eq_length_of_all (q := onlyLegalSpecial) (by intro c; simp [onlyLegalSpecial]; tauto) aS,
    countP_eq_zero_of_all (q := onlyIllegalSpecial) (by intro c; simp [onlyIllegalSpecial]; tauto) aI]
  omega

theorem Composed.countP_isLegal {p : List Char} {nU nL nD nS nI : Nat}
    (h : Composed p nU nL nD nS nI) : p.countP isLegal = nU + nL + nD + nS := by
  obtain ⟨S, I, L, U, D, hp, hU, hL, hD, hS, hI, aU, aL, aD, aS, aI⟩ := h
  rw [hp.countP_eq, List.countP_append, List.countP_append, List.countP_append,
    List.countP_append,
    countP_eq_length_of_all (q := onlyUpper) (by intro c; simp [onlyUpper, isLegal]; tauto) aU,
    countP_eq_length_of_all (q := onlyLower) (by intro c; simp [onlyLower, isLegal]; tauto) aL,
    countP_eq_length_of_all (q := onlyDigit) (by intro c; simp [onlyDigit, isLegal]; tauto) aD,
    countP_eq_length_of_all (q := onlyLegalSpecial) (by intro c; simp [onlyLegalSpecial, isLegal]; tauto) aS,
    countP_eq_zero_of_all (q := onlyIllegalSpecial) (by intro c; simp [onlyIllegalSpecial, isLegal]; tauto) aI]
  omega

theorem Composed.length_eq {p : List Char} {nU nL nD nS nI : Nat}
    (h : Composed p nU nL nD nS nI) : p.length = nU + nL + nD + nS + nI := by
  obtain ⟨S, I, L, U, D, hp, hU, hL, hD, hS, hI, -⟩ := h
  rw [hp.length_eq]
  simp only [List.length_append]
  omega

theorem Composed.utf8Size_eq {p : List Char} {nU nL nD nS nI : Nat}
    (h : Composed p nU nL nD nS nI) : ∀ c ∈ p, c.utf8Size = 1 := by
  obtain ⟨S, I, L, U, D, hp, -, -, -, -, -, aU, aL, aD, aS, aI⟩ := h
  intro c hc
  rw [hp.mem_iff] at hc
  simp only [List.mem_append] at hc
  rw [List.all_eq_true] at aU aL aD aS aI
  rcases hc with (((hc | hc) | hc) | hc) | hc
  · have := aS c hc
    simp only [onlyLegalSpecial, Bool.and_eq_true, beq_iff_eq] at this
    exact this.2
  · have := aI c hc
    simp only [onlyIllegalSpecial, Bool.and_eq_true, beq_iff_eq] at this
    exact this.2
  · have := aL c hc
    simp only [onlyLower, Bool.and_eq_true, beq_iff_eq] at this
    exact this.2
  · have := aU c hc
    simp only [onlyUpper, Bool.and_eq_true, beq_iff_eq] at this
    exact this.2
  · have := aD c hc
    simp only [onlyDigit, Bool.and_eq_true, beq_iff_eq] at this
    exact this.2

theorem exists_mem_iff_countP_pos (p : Char → Bool) (l : List Char) :
    (∃ c ∈ l, p c = true) ↔ 0 < l.countP p := by
  rw [List.countP_pos_iff]

theorem runRegexp_composed {p : List Char} {nU nL nD nS nI : Nat}
    (h : Composed p nU nL nD nS nI) :
    runRegexp ⟨p⟩ = true ↔
      nI = 0 ∧ 0 < nU ∧ 0 < nL ∧ 0 < nD ∧ 0 < nS ∧ 8 ≤ nU + nL + nD + nS := by
  have hall : (∀ c ∈ p, isLegal c = true) ↔ nI = 0 := by
    rw [← List.countP_eq_length, h.countP_isLegal, h.length_eq]
    omega
  rw [runRegexp_eq_true_iff]
  simp only [exists_mem_iff_countP_pos, hall, h.countP_isUpper, h.countP_isLower,
    h.countP_isDigit, h.countP_isLegalSpecial, h.length_eq]
  constructor
  · rintro ⟨h1, h2, h3, h4, h5, h6⟩
    subst h2
    exact ⟨rfl, h3, h4, h5, h6, by omega⟩
  · rintro ⟨h2, h3, h4, h5, h6, h1⟩
    subst h2
    exact ⟨by omega, rfl, h3, h4, h5, h6⟩

theorem composed_shuffle (s : String) (g : Src) (S I L U D : List Char)
    {nU nL nD nS nI : Nat} (hs : s.data = S ++ I ++ L ++ U ++ D)
    (hS : S.length = nS ∧ S.all onlyLegalSpecial = true)
    (hI : I.length = nI ∧ I.all onlyIllegalSpecial = true)
    (hL : L.length = nL ∧ L.all onlyLower = true)
    (hU : U.length = nU ∧ U.all onlyUpper = true)
    (hD : D.length = nD ∧ D.all onlyDigit = true) :
    Composed (Shuffle s.data g).1 nU nL nD nS nI :=
  ⟨S, I, L, U, D, hs ▸ Shuffle_perm s.data g, hU.1, hL.1, hD.1, hS.1, hI.1, hU.2, hL.2,
    hD.2, hS.2, hI.2⟩

theorem run_empty (q : Char → Bool) (n m : Nat) :
    (Join (appendEmpty n (makeStrings m)) "").data.length = 0 ∧
      (Join (appendEmpty n (makeStrings m)) "").data.all q = true := by
  rw [Join_appendEmpty]
  exact ⟨rfl, rfl⟩

theorem Intn_add_two_le {n : Nat} (h : 0 < n) (g : Src) :
    2 ≤ (Intn n g).1 + 2 ∧ (Intn n g).1 + 2 ≤ n + 1 := by
  have := Intn_lt h g
  omega

theorem run_number (n m : Nat) (g : Src) :
    (Join (appendDraws pickNumber 10 n (makeStrings m) g).1 "").data.length = n ∧
      (Join (appendDraws pickNumber 10 n (makeStrings m) g).1 "").data.all onlyDigit = true := by
  rw [Join_appendDraws]
  exact ⟨runeRun_length (by decide) (fun r hr => (pickNumber_spec r hr).1) n g,
    runeRun_all (by decide) (fun r hr => (pickNumber_spec r hr).2) n g⟩

theorem run_lower (n m : Nat) (g : Src) :
    (Join (appendDraws pickLower 26 n (makeStrings m) g).1 "").data.length = n ∧
      (Join (appendDraws pickLower 26 n (makeStrings m) g).1 "").data.all onlyLower = true := by
  rw [Join_appendDraws]
  exact ⟨runeRun_length (by decide) (fun r hr => (pickLower_spec r hr).1) n g,
    runeRun_all (by decide) (fun r hr => (pickLower_spec r hr).2) n g⟩

theorem run_upper (n m : Nat) (g : Src) :
    (Join (appendDraws pickUpper 26 n (makeStrings m) g).1 "").data.length = n ∧
      (Join (appendDraws pickUpper 26 n (makeStrings m) g).1 "").data.all onlyUpper = true := by
  rw [Join_appendDraws]
  exact ⟨runeRun_length (by decide) (fun r hr => (pickUpper_spec r hr).1) n g,
    runeRun_all (by decide) (fun r hr => (pickUpper_spec r hr).2) n g⟩

theorem run_legal (n m : Nat) (g : Src) :
    (Join (appendDraws pickLegal legalChars.length n (makeStrings m) g).1 "").data.length = n ∧
      (Join (appendDraws pickLegal legalChars.length n (makeStrings m) g).1 "").data.all
        onlyLegalSpecial = true := by
  rw [Join_appendDraws]
  exact ⟨runeRun_length (by decide) (fun r hr => (pickLegal_spec r hr).1) n g,
    runeRun_all (by decide) (fun r hr => (pickLegal_spec r hr).2) n g⟩

theorem run_illegal (n m : Nat) (g : Src) :
    (Join (appendDraws pickIllegal illegalChars.length n (makeStrings m) g).1 "").data.length = n ∧
      (Join (appendDraws pickIllegal illegalChars.length n (makeStrings m) g).1 "").data.all
        onlyIllegalSpecial = true := by
  rw [Join_appendDraws]
  exact ⟨runeRun_length (by decide) (fun r hr => (pickIllegal_spec r hr).1) n g,
    runeRun_all (by decide) (fun r hr => (pickIllegal_spec r hr).2) n g⟩


theorem Intn_le {n : Nat} (h : 0 < n) (g : Src) : (Intn n g).1 ≤ n - 1 := by
  have := Intn_lt h g
  omega

theorem Intn_add_one_le {n : Nat} (h : 0 < n) (g : Src) :
    1 ≤ (Intn n g).1 + 1 ∧ (Intn n g).1 + 1 ≤ n := by
  have := Intn_lt h g
  omega

theorem shouldPassCase_spec (g : Src) :
    ∃ (p : List Char) (g' : Src) (nU nL nD nS nI : Nat),
      shouldPassCase g = (some ⟨true, runRegexp ⟨p⟩, ⟨p⟩⟩, g') ∧
        Composed p nU nL nD nS nI ∧
        (2 ≤ nU ∧ nU ≤ 24) ∧ (2 ≤ nL ∧ nL ≤ 24) ∧ (2 ≤ nD ∧ nD ≤ 26) ∧
        (2 ≤ nS ∧ nS ≤ 24) ∧ nI = 0 := by
  unfold shouldPassCase
  lift_lets
  extract_lets numberCount nums lowerCharCount lowerChars upperCharsCount upperChars
    legalSpecialCharsCount legalSpecialChars generatedPassword shuff password pass results
  have bD : 2 ≤ numberCount ∧ numberCount ≤ 26 :=
    Intn_add_two_le (n := 25) (by decide) _
  have bL : 2 ≤ lowerCharCount ∧ lowerCharCount ≤ 24 :=
    Intn_add_two_le (n := 23) (by decide) _
  have bU : 2 ≤ upperCharsCount ∧ upperCharsCount ≤ 24 :=
    Intn_add_two_le (n := 23) (by decide) _
  have bS : 2 ≤ legalSpecialCharsCount ∧ legalSpecialCharsCount ≤ 24 :=
    Intn_add_two_le (n := 23) (by decide) _
  have hS : (Join legalSpecialChars.1 "").data.length = legalSpecialCharsCount ∧
      (Join legalSpecialChars.1 "").data.all onlyLegalSpecial = true :=
    run_legal _ _ _
  have hI : ([] : List Char).length = 0 ∧ ([] : List Char).all onlyIllegalSpecial = true :=
    ⟨rfl, rfl⟩
  have hL : (Join lowerChars.1 "").data.length = lowerCharCount ∧
      (Join lowerChars.1 "").data.all onlyLower = true :=
    run_lower _ _ _
  have hU : (Join upperChars.1 "").data.length = upperCharsCount ∧
      (Join upperChars.1 "").data.all onlyUpper = true :=
    run_upper _ _ _
  have hD : (Join nums.1 "").data.length = numberCount ∧
      (Join nums.1 "").data.all onlyDigit = true :=
    run_number _ _ _
  have e : generatedPassword.data =
      (Join legalSpecialChars.1 "").data ++ [] ++
        (Join lowerChars.1 "").data ++ (Join upperChars.1 "").data ++ (Join nums.1 "").data := by
    simp only [generatedPassword, String.data_append, List.append_nil]
  have hc : Composed shuff.1 upperCharsCount lowerCharCount numberCount
      legalSpecialCharsCount 0 :=
    composed_shuffle generatedPassword _ _ _ _ _ _ e hS hI hL hU hD
  exact ⟨shuff.1, shuff.2, _, _, _, _, _, rfl, hc, bU, bL, bD, bS, rfl⟩

theorem shouldFailSpecialCharsCase_spec (g : Src) :
    ∃ (p : List Char) (g' : Src) (nU nL nD nS nI : Nat),
      shouldFailSpecialCharsCase g = (some ⟨false, runRegexp ⟨p⟩, ⟨p⟩⟩, g') ∧
        Composed p nU nL nD nS nI ∧
        (2 ≤ nU ∧ nU ≤ 24) ∧ (2 ≤ nL ∧ nL ≤ 24) ∧ (2 ≤ nD ∧ nD ≤ 26) ∧
        nS = 0 ∧ nI = 0 := by
  unfold shouldFailSpecialCharsCase
  lift_lets
  extract_lets numberCount nums lowerCharCount lowerChars upperCharsCount upperChars
    legalSpecialCharsCount legalSpecialChars generatedPassword shuff password
  have bD : 2 ≤ numberCount ∧ numberCount ≤ 26 :=
    Intn_add_two_le (n := 25) (by decide) _
  have bL : 2 ≤ lowerCharCount ∧ lowerCharCount ≤ 24 :=
    Intn_add_two_le (n := 23) (by decide) _
  have bU : 2 ≤ upperCharsCount ∧ upperCharsCount ≤ 24 :=
    Intn_add_two_le (n := 23) (by decide) _
  have hS : (Join legalSpecialChars "").data.length = 0 ∧
      (Join legalSpecialChars "").data.all onlyLegalSpecial = true :=
    run_empty _ _ _
  have hI : ([] : List Char).length = 0 ∧ ([] : List Char).all onlyIllegalSpecial = true :=
    ⟨rfl, rfl⟩
  have hL : (Join lowerChars.1 "").data.length = lowerCharCount ∧
      (Join lowerChars.1 "").data.all onlyLower = true :=
    run_lower _ _ _
  have hU : (Join upperChars.1 "").data.length = upperCharsCount ∧
      (Join upperChars.1 "").data.all onlyUpper = true :=
    run_upper _ _ _
  have hD : (Join nums.1 "").data.length = numberCount ∧
      (Join nums.1 "").data.all onlyDigit = true :=
    run_number _ _ _
  have e : generatedPassword.data =
      (Join legalSpecialChars "").data ++ [] ++
        (Join lowerChars.1 "").data ++ (Join upperChars.1 "").data ++ (Join nums.1 "").data := by
    simp only [generatedPassword, String.data_append, List.append_nil]
  have hc : Composed shuff.1 upperCharsCount lowerCharCount numberCount
      0 0 :=
    composed_shuffle generatedPassword _ _ _ _ _ _ e hS hI hL hU hD
  exact ⟨shuff.1, shuff.2, _, _, _, _, _, rfl, hc, bU, bL, bD, rfl, rfl⟩

theorem shouldFailNumberCase_spec (g : Src) :
    ∃ (p : List Char) (g' : Src) (nU nL nD nS nI : Nat),
      shouldFailNumberCase g = (some ⟨false, runRegexp ⟨p⟩, ⟨p⟩⟩, g') ∧
        Composed p nU nL nD nS nI ∧
        (2 ≤ nU ∧ nU ≤ 24) ∧ (2 ≤ nL ∧ nL ≤ 24) ∧ nD = 0 ∧
        (2 ≤ nS ∧ nS ≤ 24) ∧ nI = 0 := by
  unfold shouldFailNumberCase
  lift_lets
  extract_lets numberCount nums lowerCharCount lowerChars upperCharsCount upperChars
    legalSpecialCharsCount legalSpecialChars generatedPassword shuff password
  have bL : 2 ≤ lowerCharCount ∧ lowerCharCount ≤ 24 :=
    Intn_add_two_le (n := 23) (by decide) _
  have bU : 2 ≤ upperCharsCount ∧ upperCharsCount ≤ 24 :=
    Intn_add_two_le (n := 23) (by decide) _
  have bS : 2 ≤ legalSpecialCharsCount ∧ legalSpecialCharsCount ≤ 24 :=
    Intn_add_two_le (n := 23) (by decide) _
  have hS : (Join legalSpecialChars.1 "").data.length = legalSpecialCharsCount ∧
      (Join legalSpecialChars.1 "").data.all onlyLegalSpecial = true :=
    run_legal _ _ _
  have hI : ([] : List Char).length = 0 ∧ ([] : List Char).all onlyIllegalSpecial = true :=
    ⟨rfl, rfl⟩
  have hL : (Join lowerChars.1 "").data.length = lowerCharCount ∧
      (Join lowerChars.1 "").data.all onlyLower = true :=
    run_lower _ _ _
  have hU : (Join upperChars.1 "").data.length = upperCharsCount ∧
      (Join upperChars.1 "").data.all onlyUpper = true :=
    run_upper _ _ _
  have hD : (Join nums "").data.length = 0 ∧
      (Join nums "").data.all onlyDigit = true :=
    run_empty _ _ _
  have e : generatedPassword.data =
      (Join legalSpecialChars.1 "").data ++ [] ++
        (Join lowerChars.1 "").data ++ (Join upperChars.1 "").data ++ (Join nums "").data := by
    simp only [generatedPassword, String.data_append, List.append_nil]
  have hc : Composed shuff.1 upperCharsCount lowerCharCount 0
      legalSpecialCharsCount 0 :=
    composed_shuffle generatedPassword _ _ _ _ _ _ e hS hI hL hU hD
  exact ⟨shuff.1, shuff.2, _, _, _, _, _, rfl, hc, bU, bL, rfl, bS, rfl⟩

theorem shouldFailLowerCase_spec (g : Src) :
    ∃ (p : List Char) (g' : Src) (nU nL nD nS nI : Nat),
      shouldFailLowerCase g = (some ⟨false, runRegexp ⟨p⟩, ⟨p⟩⟩, g') ∧
        Composed p nU nL nD nS nI ∧
        (2 ≤ nU ∧ nU ≤ 24) ∧ nL = 0 ∧ (2 ≤ nD ∧ nD ≤ 26) ∧
        (2 ≤ nS ∧ nS ≤ 24) ∧ nI = 0 := by
  unfold shouldFailLowerCase
  lift_lets
  extract_lets numberCount nums lowerCharCount lowerChars upperCharsCount upperChars
    legalSpecialCharsCount legalSpecialChars generatedPassword shuff password
  have bD : 2 ≤ numberCount ∧ numberCount ≤ 26 :=
    Intn_add_two_le (n := 25) (by decide) _
  have bU : 2 ≤ upperCharsCount ∧ upperCharsCount ≤ 24 :=
    Intn_add_two_le (n := 23) (by decide) _
  have bS : 2 ≤ legalSpecialCharsCount ∧ legalSpecialCharsCount ≤ 24 :=
    Intn_add_two_le (n := 23) (by decide) _
  have hS : (Join legalSpecialChars.1 "").data.length = legalSpecialCharsCount ∧
      (Join legalSpecialChars.1 "").data.all onlyLegalSpecial = true :=
    run_legal _ _ _
  have hI : ([] : List Char).length = 0 ∧ ([] : List Char).all onlyIllegalSpecial = true :=
    ⟨rfl, rfl⟩
  have hL : (Join lowerChars "").data.length = 0 ∧
      (Join lowerChars "").data.all onlyLower = true :=
    run_empty _ _ _
  have hU : (Join upperChars.1 "").data.length = upperCharsCount ∧
      (Join upperChars.1 "").data.all onlyUpper = true :=
    run_upper _ _ _
  have hD : (Join nums.1 "").data.length = numberCount ∧
      (Join nums.1 "").data.all onlyDigit = true :=
    run_number _ _ _
  have e : generatedPassword.data =
      (Join legalSpecialChars.1 "").data ++ [] ++
        (Join lowerChars "").data ++ (Join upperChars.1 "").data ++ (Join nums.1 "").data := by
    simp only [generatedPassword, String.data_append, List.append_nil]
  have hc : Composed shuff.1 upperCharsCount 0 numberCount
      legalSpecialCharsCount 0 :=
    composed_shuffle generatedPassword _ _ _ _ _ _ e hS hI hL hU hD
  exact ⟨shuff.1, shuff.2, _, _, _, _, _, rfl, hc, bU, rfl, bD, bS, rfl⟩

theorem shouldFailUpperCase_spec (g : Src) :
    ∃ (p : List Char) (g' : Src) (nU nL nD nS nI : Nat),
      shouldFailUpperCase g = (some ⟨false, runRegexp ⟨p⟩, ⟨p⟩⟩, g') ∧
        Composed p nU nL nD nS nI ∧
        nU = 0 ∧ (2 ≤ nL ∧ nL ≤ 24) ∧ (2 ≤ nD ∧ nD ≤ 26) ∧
        (2 ≤ nS ∧ nS ≤ 24) ∧ nI = 0 := by
  unfold shouldFailUpperCase
  lift_lets
  extract_lets numberCount nums lowerCharCount lowerChars upperCharsCount upperChars
    legalSpecialCharsCount legalSpecialChars generatedPassword shuff password
  have bD : 2 ≤ numberCount ∧ numberCount ≤ 26 :=
    Intn_add_two_le (n := 25) (by decide) _
  have bL : 2 ≤ lowerCharCount ∧ lowerCharCount ≤ 24 :=
    Intn_add_two_le (n := 23) (by decide) _
  have bS : 2 ≤ legalSpecialCharsCount ∧ legalSpecialCharsCount ≤ 24 :=
    Intn_add_two_le (n := 23) (by decide) _
  have hS : (Join legalSpecialChars.1 "").data.length = legalSpecialCharsCount ∧
      (Join legalSpecialChars.1 "").data.all onlyLegalSpecial = true :=
    run_legal _ _ _
  have hI : ([] : List Char).length = 0 ∧ ([] : List Char).all onlyIllegalSpecial = true :=
    ⟨rfl, rfl⟩
  have hL : (Join lowerChars.1 "").data.length = lowerCharCount ∧
      (Join lowerChars.1 "").data.all onlyLower = true :=
    run_lower _ _ _
  have hU : (Join upperChars "").data.length = 0 ∧
      (Join upperChars "").data.all onlyUpper = true :=
    run_empty _ _ _
  have hD : (Join nums.1 "").data.length = numberCount ∧
      (Join nums.1 "").data.all onlyDigit = true :=
    run_number _ _ _
  have e : generatedPassword.data =
      (Join legalSpecialChars.1 "").data ++ [] ++
        (Join lowerChars.1 "").data ++ (Join upperChars "").data ++ (Join nums.1 "").data := by
    simp only [generatedPassword, String.data_append, List.append_nil]
  have hc : Composed shuff.1 0 lowerCharCount numberCount
      legalSpecialCharsCount 0 :=
    composed_shuffle generatedPassword _ _ _ _ _ _ e hS hI hL hU hD
  exact ⟨shuff.1, shuff.2, _, _, _, _, _, rfl, hc, rfl, bL, bD, bS, rfl⟩

theorem shouldFailIllegalCharsCase_spec (g : Src) :
    ∃ (p : List Char) (g' : Src) (nU nL nD nS nI : Nat),
      shouldFailIllegalCharsCase g = (some ⟨false, runRegexp ⟨p⟩, ⟨p⟩⟩, g') ∧
        Composed p nU nL nD nS nI ∧
        nU ≤ 24 ∧ nL ≤ 24 ∧ nD ≤ 24 ∧
        nS ≤ 24 ∧ (1 ≤ nI ∧ nI ≤ 25) := by
  unfold shouldFailIllegalCharsCase
  lift_lets
  extract_lets numberCount nums lowerCharCount lowerChars upperCharsCount upperChars
    legalSpecialCharsCount legalSpecialChars illegalSpecialCharsCount illegalSpecialChars
    generatedPassword shuff password
  have bD : numberCount ≤ 24 := Intn_le (n := 25) (by decide) _
  have bL : lowerCharCount ≤ 24 := Intn_le (n := 25) (by decide) _
  have bU : upperCharsCount ≤ 24 := Intn_le (n := 25) (by decide) _
  have bS : legalSpecialCharsCount ≤ 24 := Intn_le (n := 25) (by decide) _
  have bI : 1 ≤ illegalSpecialCharsCount ∧ illegalSpecialCharsCount ≤ 25 :=
    Intn_add_one_le (n := 25) (by decide) _
  have hS : (Join legalSpecialChars.1 "").data.length = legalSpecialCharsCount ∧
      (Join legalSpecialChars.1 "").data.all onlyLegalSpecial = true :=
    run_legal _ _ _
  have hI : (Join illegalSpecialChars.1 "").data.length = illegalSpecialCharsCount ∧
      (Join illegalSpecialChars.1 "").data.all onlyIllegalSpecial = true :=
    run_illegal _ _ _
  have hL : (Join lowerChars.1 "").data.length = lowerCharCount ∧
      (Join lowerChars.1 "").data.all onlyLower = true :=
    run_lower _ _ _
  have hU : (Join upperChars.1 "").data.length = upperCharsCount ∧
      (Join upperChars.1 "").data.all onlyUpper = true :=
    run_upper _ _ _
  have hD : (Join nums.1 "").data.length = numberCount ∧
      (Join nums.1 "").data.all onlyDigit = true :=
    run_number _ _ _
  have e : generatedPassword.data =
      (Join legalSpecialChars.1 "").data ++ (Join illegalSpecialChars.1 "").data ++
        (Join lowerChars.1 "").data ++ (Join upperChars.1 "").data ++ (Join nums.1 "").data := by
    simp only [generatedPassword, String.data_append, List.append_nil]
  have hc : Composed shuff.1 upperCharsCount lowerCharCount numberCount
      legalSpecialCharsCount illegalSpecialCharsCount :=
    composed_shuffle generatedPassword _ _ _ _ _ _ e hS hI hL hU hD
  exact ⟨shuff.1, shuff.2, _, _, _, _, _, rfl, hc, bU, bL, bD, bS, bI⟩

theorem shouldFailLengthShuffled_spec (g : Src) :
    ∃ (p : List Char) (g' : Src) (nU nL nD nS nI : Nat),
      shouldFailLengthShuffled g = (⟨p⟩, g') ∧
        Composed p nU nL nD nS nI ∧
        (2 ≤ nU ∧ nU ≤ 24) ∧ (2 ≤ nL ∧ nL ≤ 24) ∧ (2 ≤ nD ∧ nD ≤ 26) ∧
        (2 ≤ nS ∧ nS ≤ 24) ∧ nI = 0 := by
  unfold shouldFailLengthShuffled
  lift_lets
  extract_lets numberCount nums lowerCharCount lowerChars upperCharsCount upperChars
    legalSpecialCharsCount legalSpecialChars generatedPassword shuff
  have bD : 2 ≤ numberCount ∧ numberCount ≤ 26 :=
    Intn_add_two_le (n := 25) (by decide) _
  have bL : 2 ≤ lowerCharCount ∧ lowerCharCount ≤ 24 :=
    Intn_add_two_le (n := 23) (by decide) _
  have bU : 2 ≤ upperCharsCount ∧ upperCharsCount ≤ 24 :=
    Intn_add_two_le (n := 23) (by decide) _
  have bS : 2 ≤ legalSpecialCharsCount ∧ legalSpecialCharsCount ≤ 24 :=
    Intn_add_two_le (n := 23) (by decide) _
  have hS : (Join legalSpecialChars.1 "").data.length = legalSpecialCharsCount ∧
      (Join legalSpecialChars.1 "").data.all onlyLegalSpecial = true :=
    run_legal _ _ _
  have hI : ([] : List Char).length = 0 ∧ ([] : List Char).all onlyIllegalSpecial = true :=
    ⟨rfl, rfl⟩
  have hL : (Join lowerChars.1 "").data.length = lowerCharCount ∧
      (Join lowerChars.1 "").data.all onlyLower = true :=
    run_lower _ _ _
  have hU : (Join upperChars.1 "").data.length = upperCharsCount ∧
      (Join upperChars.1 "").data.all onlyUpper = true :=
    run_upper _ _ _
  have hD : (Join nums.1 "").data.length = numberCount ∧
      (Join nums.1 "").data.all onlyDigit = true :=
    run_number _ _ _
  have e : generatedPassword.data =
      (Join legalSpecialChars.1 "").data ++ [] ++
        (Join lowerChars.1 "").data ++ (Join upperChars.1 "").data ++ (Join nums.1 "").data := by
    simp only [generatedPassword, String.data_append, List.append_nil]
  have hc : Composed shuff.1 upperCharsCount lowerCharCount numberCount
      legalSpecialCharsCount 0 :=
    composed_shuffle generatedPassword _ _ _ _ _ _ e hS hI hL hU hD
  exact ⟨shuff.1, shuff.2, _, _, _, _, _, rfl, hc, bU, bL, bD, bS, rfl⟩

theorem mem_sendLoop {body : Src → Option testResults × Src} {n : Nat} {g : Src}
    {r : testResults} (h : r ∈ sendLoop body n g) : ∃ g', (body g').1 = some r := by
  induction n generalizing g with
  | zero => simp [sendLoop] at h
  | succ n ih =>
    rw [sendLoop] at h
    cases hb : (body g).1 with
    | none => simp [hb] at h
    | some r' =>
      simp only [hb, List.mem_cons] at h
      rcases h with rfl | h
      · exact ⟨g, hb⟩
      · exact ih h

theorem sendLoop_length {body : Src → Option testResults × Src}
    (hb : ∀ g, ∃ r, (body g).1 = some r) (n : Nat) (g : Src) :
    (sendLoop body n g).length = n := by
  induction n generalizing g with
  | zero => rfl
  | succ n ih =>
    obtain ⟨r, hr⟩ := hb g
    rw [sendLoop]
    simp only [hr, List.length_cons, ih]

/-- C1. `runRegexp` accepts a string exactly when it has at least 8 characters, all of
them in `A-Z`, `a-z`, `0-9` or `legalChars`, and it contains an uppercase letter, a
lowercase letter, a digit and a legal special. -/
theorem runRegexp_iff_policy (s : String) : runRegexp s = true ↔ policy s := by
  rw [runRegexp_eq_true_iff]
  rfl

/-- C3. Whatever the random draws, each of `shouldFailUpper`, `shouldFailLower`,
`shouldFailNumber` and `shouldFailSpecialChars` sends one result for each of its
`testsToRun` iterations, and every password it sends has no character of the targeted
class (uppercase, lowercase, digit, legal special) and is sent with
`expectedResult = false` and `actualResult = false`. -/
theorem missing_class_rejected (testsToRun : Int) (g : Src) :
    (((shouldFailUpper testsToRun g).length = testsToRun.toNat) ∧
      ∀ r ∈ shouldFailUpper testsToRun g,
        r.testedPassword.data.countP isUpper = 0 ∧
          r.expectedResult = false ∧ r.actualResult = false) ∧
    (((shouldFailLower testsToRun g).length = testsToRun.toNat) ∧
      ∀ r ∈ shouldFailLower testsToRun g,
        r.testedPassword.data.countP isLower = 0 ∧
          r.expectedResult = false ∧ r.actualResult = false) ∧
    (((shouldFailNumber testsToRun g).length = testsToRun.toNat) ∧
      ∀ r ∈ shouldFailNumber testsToRun g,
        r.testedPassword.data.countP isDigit = 0 ∧
          r.expectedResult = false ∧ r.actualResult = false) ∧
    (((shouldFailSpecialChars testsToRun g).length = testsToRun.toNat) ∧
      ∀ r ∈ shouldFailSpecialChars testsToRun g,
        r.testedPassword.data.countP isLegalSpecial = 0 ∧
          r.expectedResult = false ∧ r.actualResult = false) := by
  refine ⟨?_, ?_, ?_, ?_⟩
  · refine ⟨?_, ?_⟩
    · show (sendLoop shouldFailUpperCase testsToRun.toNat g).length = testsToRun.toNat
      refine sendLoop_length (fun g1 => ?_) _ g
      obtain ⟨p, g2, _, _, _, _, _, he, -⟩ := shouldFailUpperCase_spec g1
      exact ⟨_, by rw [he]⟩
    · intro r h
      obtain ⟨g', hg'⟩ := mem_sendLoop h
      obtain ⟨p, g2, nU, nL, nD, nS, nI, he, hc, hz, -⟩ :=
        shouldFailUpperCase_spec g'
      have he' : (shouldFailUpperCase g').1 = some r := hg'
      rw [he] at he'
      have hr : r = ⟨false, runRegexp ⟨p⟩, ⟨p⟩⟩ := (Option.some.inj he').symm
      subst hr
      refine ⟨by rw [hc.countP_isUpper, hz], rfl, ?_⟩
      show runRegexp ⟨p⟩ = false
      rw [Bool.eq_false_iff]
      intro ht
      rw [runRegexp_composed hc] at ht
      omega
  · refine ⟨?_, ?_⟩
    · show (sendLoop shouldFailLowerCase testsToRun.toNat g).length = testsToRun.toNat
      refine sendLoop_length (fun g1 => ?_) _ g
      obtain ⟨p, g2, _, _, _, _, _, he, -⟩ := shouldFailLowerCase_spec g1
      exact ⟨_, by rw [he]⟩
    · intro r h
      obtain ⟨g', hg'⟩ := mem_sendLoop h
      obtain ⟨p, g2, nU, nL, nD, nS, nI, he, hc, -, hz, -⟩ :=
        shouldFailLowerCase_spec g'
      have he' : (shouldFailLowerCase g').1 = some r := hg'
      rw [he] at he'
      have hr : r = ⟨false, runRegexp ⟨p⟩, ⟨p⟩⟩ := (Option.some.inj he').symm
      subst hr
      refine ⟨by rw [hc.countP_isLower, hz], rfl, ?_⟩
      show runRegexp ⟨p⟩ = false
      rw [Bool.eq_false_iff]
      intro ht
      rw [runRegexp_composed hc] at ht
      omega
  · refine ⟨?_, ?_⟩
    · show (sendLoop shouldFailNumberCase testsToRun.toNat g).length = testsToRun.toNat
      refine sendLoop_length (fun g1 => ?_) _ g
      obtain ⟨p, g2, _, _, _, _, _, he, -⟩ := shouldFailNumberCase_spec g1
      exact ⟨_, by rw [he]⟩
    · intro r h
      obtain ⟨g', hg'⟩ := mem_sendLoop h
      obtain ⟨p, g2, nU, nL, nD, nS, nI, he, hc, -, -, hz, -⟩ :=
        shouldFailNumberCase_spec g'
      have he' : (shouldFailNumberCase g').1 = some r := hg'
      rw [he] at he'
      have hr : r = ⟨false, runRegexp ⟨p⟩, ⟨p⟩⟩ := (Option.some.inj he').symm
      subst hr
      refine ⟨by rw [hc.countP_isDigit, hz], rfl, ?_⟩
      show runRegexp ⟨p⟩ = false
      rw [Bool.eq_false_iff]
      intro ht
      rw [runRegexp_composed hc] at ht
      omega
  · refine ⟨?_, ?_⟩
    · show (sendLoop shouldFailSpecialCharsCase testsToRun.toNat g).length = testsToRun.toNat
      refine sendLoop_length (fun g1 => ?_) _ g
      obtain ⟨p, g2, _, _, _, _, _, he, -⟩ := shouldFailSpecialCharsCase_spec g1
      exact ⟨_, by rw [he]⟩
    · intro r h
      obtain ⟨g', hg'⟩ := mem_sendLoop h
      obtain ⟨p, g2, nU, nL, nD, nS, nI, he, hc, -, -, -, hz, -⟩ :=
        shouldFailSpecialCharsCase_spec g'
      have he' : (shouldFailSpecialCharsCase g').1 = some r := hg'
      rw [he] at he'
      have hr : r = ⟨false, runRegexp ⟨p⟩, ⟨p⟩⟩ := (Option.some.inj he').symm
      subst hr
      refine ⟨by rw [hc.countP_isLegalSpecial, hz], rfl, ?_⟩
      show runRegexp ⟨p⟩ = false
      rw [Bool.eq_false_iff]
      intro ht
      rw [runRegexp_composed hc] at ht
      omega

theorem missing_class_rejected_witness :
    (((shouldFailUpper 1 (constTape 0)).length = 1) ∧
      (⟨false, false, "-aa00-"⟩ : testResults) ∈ shouldFailUpper 1 (constTape 0) ∧
      ("-aa00-".data.countP isUpper = 0 ∧
        (⟨false, false, "-aa00-"⟩ : testResults).expectedResult = false ∧
        (⟨false, false, "-aa00-"⟩ : testResults).actualResult = false)) ∧
    (((shouldFailLower 1 (constTape 0)).length = 1) ∧
      (⟨false, false, "-AA00-"⟩ : testResults) ∈ shouldFailLower 1 (constTape 0) ∧
      ("-AA00-".data.countP isLower = 0 ∧
        (⟨false, false, "-AA00-"⟩ : testResults).expectedResult = false ∧
        (⟨false, false, "-AA00-"⟩ : testResults).actualResult = false)) ∧
    (((shouldFailNumber 1 (constTape 0)).length = 1) ∧
      (⟨false, false, "-aaAA-"⟩ : testResults) ∈ shouldFailNumber 1 (constTape 0) ∧
      ("-aaAA-".data.countP isDigit = 0 ∧
        (⟨false, false, "-aaAA-"⟩ : testResults).expectedResult = false ∧
        (⟨false, false, "-aaAA-"⟩ : testResults).actualResult = false)) ∧
    (((shouldFailSpecialChars 1 (constTape 0)).length = 1) ∧
      (⟨false, false, "aAA00a"⟩ : testResults) ∈ shouldFailSpecialChars 1 (constTape 0) ∧
      ("aAA00a".data.countP isLegalSpecial = 0 ∧
        (⟨false, false, "aAA00a"⟩ : testResults).expectedResult = false ∧
        (⟨false, false, "aAA00a"⟩ : testResults).actualResult = false)) :=
  ⟨⟨(missing_class_rejected 1 (constTape 0)).1.1, by decide,
      (missing_class_rejected 1 (constTape 0)).1.2 ⟨false, false, "-aa00-"⟩ (by decide)⟩,
    ⟨(missing_class_rejected 1 (constTape 0)).2.1.1, by decide,
      (missing_class_rejected 1 (constTape 0)).2.1.2 ⟨false, false, "-AA00-"⟩ (by decide)⟩,
    ⟨(missing_class_rejected 1 (constTape 0)).2.2.1.1, by decide,
      (missing_class_rejected 1 (constTape 0)).2.2.1.2 ⟨false, false, "-aaAA-"⟩ (by decide)⟩,
    ⟨(missing_class_rejected 1 (constTape 0)).2.2.2.1, by decide,
      (missing_class_rejected 1 (constTape 0)).2.2.2.2 ⟨false, false, "aAA00a"⟩ (by decide)⟩⟩

theorem takeBytes_eq_take {l : List Char} (h : ∀ c ∈ l, c.utf8Size = 1) (k : Nat) :
    takeBytes k l = l.take k := by
  induction l generalizing k with
  | nil => simp [takeBytes]
  | cons c cs ih =>
    have hc : c.utf8Size = 1 := h c (List.mem_cons_self _ _)
    have hcs : ∀ c ∈ cs, c.utf8Size = 1 := fun c' hc' => h c' (List.mem_cons_of_mem _ hc')
    cases k with
    | zero => simp [takeBytes, hc]
    | succ k => simp [takeBytes, hc, ih hcs]

theorem len_eq_length {s : String} (h : ∀ c ∈ s.data, c.utf8Size = 1) :
    len s = s.data.length := by
  have : ∀ l : List Char, (∀ c ∈ l, c.utf8Size = 1) → (l.map Char.utf8Size).sum = l.length := by
    intro l
    induction l with
    | nil => intro _; rfl
    | cons c cs ih =>
      intro hl
      simp only [List.map_cons, List.sum_cons, List.length_cons,
        hl c (List.mem_cons_self _ _), ih (fun c' hc' => hl c' (List.mem_cons_of_mem _ hc'))]
      omega
  exact this _ h

theorem runRegexp_short {s : String} (h : s.data.length < 8) : runRegexp s = false := by
  rw [Bool.eq_false_iff]
  intro ht
  rw [runRegexp_eq_true_iff] at ht
  omega

theorem shouldFailLength_facts (g : Src) :
    8 ≤ (shouldFailLengthShuffled g).1.data.length ∧
      (∀ c ∈ (shouldFailLengthShuffled g).1.data, c.utf8Size = 1) ∧
      len (shouldFailLengthShuffled g).1 = (shouldFailLengthShuffled g).1.data.length ∧
      (1 ≤ shouldFailLengthCut g ∧ shouldFailLengthCut g ≤ 7) ∧
      sliceTo (shouldFailLengthShuffled g).1 (shouldFailLengthCut g) =
        some ⟨(shouldFailLengthShuffled g).1.data.take (shouldFailLengthCut g)⟩ := by
  obtain ⟨p, g', nU, nL, nD, nS, nI, he, hc, hU, hL, hD, hS, hI⟩ :=
    shouldFailLengthShuffled_spec g
  have hk : 1 ≤ shouldFailLengthCut g ∧ shouldFailLengthCut g ≤ 7 :=
    Intn_add_one_le (n := 7) (by decide) _
  rw [he]
  have h8 : 8 ≤ p.length := by rw [hc.length_eq]; omega
  have hb : ∀ c ∈ p, c.utf8Size = 1 := hc.utf8Size_eq
  have hl : len ⟨p⟩ = p.length := len_eq_length (s := ⟨p⟩) hb
  refine ⟨h8, hb, hl, hk, ?_⟩
  rw [sliceTo, if_pos (by rw [hl]; omega), takeBytes_eq_take hb]

theorem shouldFailLengthCase_eq (g : Src) :
    shouldFailLengthCase g =
      (some ⟨false,
          runRegexp ⟨(shouldFailLengthShuffled g).1.data.take (shouldFailLengthCut g)⟩,
          ⟨(shouldFailLengthShuffled g).1.data.take (shouldFailLengthCut g)⟩⟩,
        (Intn 7 (shouldFailLengthShuffled g).2).2) := by
  rw [shouldFailLengthCase]
  simp only [(shouldFailLength_facts g).2.2.2.2]

/-- C6. The slice expression `generatedPassword[:rand.Intn(7)+1]` of `shouldFailLength`
is never out of range: whatever the random draws, the shuffled string has at least 8
characters, each a single byte, so its byte length is at least 8, the cut length is at
most 7, the slice is the prefix of that many characters, and the iteration sends a
result instead of panicking. -/
theorem shouldFailLength_slice_in_range (g : Src) :
    8 ≤ (shouldFailLengthShuffled g).1.data.length ∧
      (∀ c ∈ (shouldFailLengthShuffled g).1.data, c.utf8Size = 1) ∧
      8 ≤ len (shouldFailLengthShuffled g).1 ∧
      shouldFailLengthCut g ≤ 7 ∧
      shouldFailLengthCut g ≤ len (shouldFailLengthShuffled g).1 ∧
      sliceTo (shouldFailLengthShuffled g).1 (shouldFailLengthCut g) =
        some ⟨(shouldFailLengthShuffled g).1.data.take (shouldFailLengthCut g)⟩ ∧
      (shouldFailLengthCase g).1 ≠ none := by
  obtain ⟨h8, hb, hl, hk, hs⟩ := shouldFailLength_facts g
  refine ⟨h8, hb, by omega, hk.2, by omega, hs, ?_⟩
  rw [shouldFailLengthCase_eq]
  simp

theorem Composed.all_legal {p : List Char} {nU nL nD nS : Nat}
    (h : Composed p nU nL nD nS 0) : ∀ c ∈ p, isLegal c = true := by
  rw [← List.countP_eq_length, h.countP_isLegal, h.length_eq]
  rfl

theorem mem_run_composed {body : Src → Option testResults × Src} {e : Bool}
    {P : Nat → Nat → Nat → Nat → Nat → Prop}
    (hs : ∀ g, ∃ (p : List Char) (g' : Src) (nU nL nD nS nI : Nat),
      body g = (some ⟨e, runRegexp ⟨p⟩, ⟨p⟩⟩, g') ∧ Composed p nU nL nD nS nI ∧
        P nU nL nD nS nI)
    {n : Nat} {g : Src} {r : testResults} (h : r ∈ sendLoop body n g) :
    ∃ nU nL nD nS nI : Nat, Composed r.testedPassword.data nU nL nD nS nI ∧
      P nU nL nD nS nI := by
  obtain ⟨g', hg'⟩ := mem_sendLoop h
  obtain ⟨p, g2, nU, nL, nD, nS, nI, he, hc, hP⟩ := hs g'
  rw [he] at hg'
  have hr : r = ⟨e, runRegexp ⟨p⟩, ⟨p⟩⟩ := (Option.some.inj hg').symm
  subst hr
  exact ⟨nU, nL, nD, nS, nI, hc, hP⟩

/-- C7, as stated, fails: on the tape whose raw outcomes are all 24, `shouldPass` draws
`rand.Intn(25) + 2 = 26` digits, so the password it sends has more than 24 digits. -/
theorem shouldPass_class_counts_counterexample :
    ¬ ∀ r ∈ shouldPass 1 (constTape 24),
      (2 ≤ r.testedPassword.data.countP isUpper ∧
        r.testedPassword.data.countP isUpper ≤ 24) ∧
      (2 ≤ r.testedPassword.data.countP isLower ∧
        r.testedPassword.data.countP isLower ≤ 24) ∧
      (2 ≤ r.testedPassword.data.countP isDigit ∧
        r.testedPassword.data.countP isDigit ≤ 24) ∧
      (2 ≤ r.testedPassword.data.countP isLegalSpecial ∧
        r.testedPassword.data.countP isLegalSpecial ≤ 24) ∧
      ∀ c ∈ r.testedPassword.data, isLegal c = true := by
  decide

/-- C7, amended. Whatever the random draws, every password `shouldPass` sends has
between 2 and 24 uppercase letters, between 2 and 24 lowercase letters, between 2 and
24 legal specials and between 2 and 26 digits, and all its characters are in the legal
alphabet; the same bounds hold for the classes that are present in the passwords of
the four missing-class generators and in the shuffled string of `shouldFailLength`
before truncation. -/
theorem class_counts (testsToRun : Int) (g : Src) :
    (∀ r ∈ shouldPass testsToRun g,
      (2 ≤ r.testedPassword.data.countP isUpper ∧
        r.testedPassword.data.countP isUpper ≤ 24) ∧
      (2 ≤ r.testedPassword.data.countP isLower ∧
        r.testedPassword.data.countP isLower ≤ 24) ∧
      (2 ≤ r.testedPassword.data.countP isDigit ∧
        r.testedPassword.data.countP isDigit ≤ 26) ∧
      (2 ≤ r.testedPassword.data.countP isLegalSpecial ∧
        r.testedPassword.data.countP isLegalSpecial ≤ 24) ∧
      ∀ c ∈ r.testedPassword.data, isLegal c = true) ∧
    (∀ r ∈ shouldFailUpper testsToRun g,
      (2 ≤ r.testedPassword.data.countP isLower ∧
        r.testedPassword.data.countP isLower ≤ 24) ∧
      (2 ≤ r.testedPassword.data.countP isDigit ∧
        r.testedPassword.data.countP isDigit ≤ 26) ∧
      (2 ≤ r.testedPassword.data.countP isLegalSpecial ∧
        r.testedPassword.data.countP isLegalSpecial ≤ 24) ∧
      ∀ c ∈ r.testedPassword.data, isLegal c = true) ∧
    (∀ r ∈ shouldFailLower testsToRun g,
      (2 ≤ r.testedPassword.data.countP isUpper ∧
        r.testedPassword.data.countP isUpper ≤ 24) ∧
      (2 ≤ r.testedPassword.data.countP isDigit ∧
        r.testedPassword.data.countP isDigit ≤ 26) ∧
      (2 ≤ r.testedPassword.data.countP isLegalSpecial ∧
        r.testedPassword.data.countP isLegalSpecial ≤ 24) ∧
      ∀ c ∈ r.testedPassword.data, isLegal c = true) ∧
    (∀ r ∈ shouldFailNumber testsToRun g,
      (2 ≤ r.testedPassword.data.countP isUpper ∧
        r.testedPassword.data.countP isUpper ≤ 24) ∧
      (2 ≤ r.testedPassword.data.countP isLower ∧
        r.testedPassword.data.countP isLower ≤ 24) ∧
      (2 ≤ r.testedPassword.data.countP isLegalSpecial ∧
        r.testedPassword.data.countP isLegalSpecial ≤ 24) ∧
      ∀ c ∈ r.testedPassword.data, isLegal c = true) ∧
    (∀ r ∈ shouldFailSpecialChars testsToRun g,
      (2 ≤ r.testedPassword.data.countP isUpper ∧
        r.testedPassword.data.countP isUpper ≤ 24) ∧
      (2 ≤ r.testedPassword.data.countP isLower ∧
        r.testedPassword.data.countP isLower ≤ 24) ∧
      (2 ≤ r.testedPassword.data.countP isDigit ∧
        r.testedPassword.data.countP isDigit ≤ 26) ∧
      ∀ c ∈ r.testedPassword.data, isLegal c = true) ∧
    ((2 ≤ (shouldFailLengthShuffled g).1.data.countP isUpper ∧
        (shouldFailLengthShuffled g).1.data.countP isUpper ≤ 24) ∧
      (2 ≤ (shouldFailLengthShuffled g).1.data.countP isLower ∧
        (shouldFailLengthShuffled g).1.data.countP isLower ≤ 24) ∧
      (2 ≤ (shouldFailLengthShuffled g).1.data.countP isDigit ∧
        (shouldFailLengthShuffled g).1.data.countP isDigit ≤ 26) ∧
      (2 ≤ (shouldFailLengthShuffled g).1.data.countP isLegalSpecial ∧
        (shouldFailLengthShuffled g).1.data.countP isLegalSpecial ≤ 24) ∧
      ∀ c ∈ (shouldFailLengthShuffled g).1.data, isLegal c = true) := by
  refine ⟨?_, ?_, ?_, ?_, ?_, ?_⟩
  · intro r h
    obtain ⟨nU, nL, nD, nS, nI, hc, hU, hL, hD, hS, hI⟩ :=
      mem_run_composed shouldPassCase_spec h
    subst hI
    rw [hc.countP_isUpper, hc.countP_isLower, hc.countP_isDigit, hc.countP_isLegalSpecial]
    exact ⟨hU, hL, hD, hS, hc.all_legal⟩
  · intro r h
    obtain ⟨nU, nL, nD, nS, nI, hc, hU, hL, hD, hS, hI⟩ :=
      mem_run_composed shouldFailUpperCase_spec h
    subst hI
    rw [hc.countP_isLower, hc.countP_isDigit, hc.countP_isLegalSpecial]
    exact ⟨hL, hD, hS, hc.all_legal⟩
  · intro r h
    obtain ⟨nU, nL, nD, nS, nI, hc, hU, hL, hD, hS, hI⟩ :=
      mem_run_composed shouldFailLowerCase_spec h
    subst hI
    rw [hc.countP_isUpper, hc.countP_isDigit, hc.countP_isLegalSpecial]
    exact ⟨hU, hD, hS, hc.all_legal⟩
  · intro r h
    obtain ⟨nU, nL, nD, nS, nI, hc, hU, hL, hD, hS, hI⟩ :=
      mem_run_composed shouldFailNumberCase_spec h
    subst hI
    rw [hc.countP_isUpper, hc.countP_isLower, hc.countP_isLegalSpecial]
    exact ⟨hU, hL, hS, hc.all_legal⟩
  · intro r h
    obtain ⟨nU, nL, nD, nS, nI, hc, hU, hL, hD, hS, hI⟩ :=
      mem_run_composed shouldFailSpecialCharsCase_spec h
    subst hI
    rw [hc.countP_isUpper, hc.countP_isLower, hc.countP_isDigit]
    exact ⟨hU, hL, hD, hc.all_legal⟩
  · obtain ⟨p, g', nU, nL, nD, nS, nI, he, hc, hU, hL, hD, hS, hI⟩ :=
      shouldFailLengthShuffled_spec g
    subst hI
    rw [he]
    show (_ ∧ _) ∧ (_ ∧ _) ∧ (_ ∧ _) ∧ (_ ∧ _) ∧ ∀ c ∈ p, isLegal c = true
    rw [hc.countP_isUpper, hc.countP_isLower, hc.countP_isDigit, hc.countP_isLegalSpecial]
    exact ⟨hU, hL, hD, hS, hc.all_legal⟩

theorem class_counts_witness :
    (⟨true, true, "-aaAA00-"⟩ : testResults) ∈ shouldPass 1 (constTape 0) ∧
      ((2 ≤ "-aaAA00-".data.countP isUpper ∧ "-aaAA00-".data.countP isUpper ≤ 24) ∧
      (2 ≤ "-aaAA00-".data.countP isLower ∧ "-aaAA00-".data.countP isLower ≤ 24) ∧
      (2 ≤ "-aaAA00-".data.countP isDigit ∧ "-aaAA00-".data.countP isDigit ≤ 26) ∧
      (2 ≤ "-aaAA00-".data.countP isLegalSpecial ∧
        "-aaAA00-".data.countP isLegalSpecial ≤ 24) ∧
      ∀ c ∈ "-aaAA00-".data, isLegal c = true) :=
  ⟨by decide, (class_counts 1 (constTape 0)).1 ⟨true, true, "-aaAA00-"⟩ (by decide)⟩

theorem start_tests (cond : Bool) (gen : Generator) (s : Started)
    (h : s.tests = s.goroutines.length) :
    (start cond gen s).tests = (start cond gen s).goroutines.length := by
  cases cond with
  | false => simpa [start] using h
  | true => simp [start, h]

theorem startTests_tests (cfg : Config) :
    (startTests cfg).tests = (startTests cfg).goroutines.length := by
  unfold startTests
  exact start_tests _ _ _ (start_tests _ _ _ (start_tests _ _ _ (start_tests _ _ _
    (start_tests _ _ _ (start_tests _ _ _ (start_tests _ _ _ rfl))))))

theorem body_sends (gen : Generator) (g : Src) : ∃ r, (gen.body g).1 = some r := by
  cases gen with
  | shouldPass =>
    obtain ⟨p, g', _, _, _, _, _, he, -⟩ := shouldPassCase_spec g
    exact ⟨_, by rw [Generator.body, he]⟩
  | shouldFailSpecialChars =>
    obtain ⟨p, g', _, _, _, _, _, he, -⟩ := shouldFailSpecialCharsCase_spec g
    exact ⟨_, by rw [Generator.body, he]⟩
  | shouldFailIllegalChars =>
    obtain ⟨p, g', _, _, _, _, _, he, -⟩ := shouldFailIllegalCharsCase_spec g
    exact ⟨_, by rw [Generator.body, he]⟩
  | shouldFailNumber =>
    obtain ⟨p, g', _, _, _, _, _, he, -⟩ := shouldFailNumberCase_spec g
    exact ⟨_, by rw [Generator.body, he]⟩
  | shouldFailUpper =>
    obtain ⟨p, g', _, _, _, _, _, he, -⟩ := shouldFailUpperCase_spec g
    exact ⟨_, by rw [Generator.body, he]⟩
  | shouldFailLower =>
    obtain ⟨p, g', _, _, _, _, _, he, -⟩ := shouldFailLowerCase_spec g
    exact ⟨_, by rw [Generator.body, he]⟩
  | shouldFailLength => exact ⟨_, by rw [Generator.body, shouldFailLengthCase_eq]⟩

theorem run_length (gen : Generator) (testsToRun : Int) (g : Src) :
    (gen.run testsToRun g).length = testsToRun.toNat :=
  sendLoop_length (body_sends gen) _ g

theorem writeLoop_no_exit (n : Nat) (received : List testResults)
    (written : List (List String)) (h : n ≤ received.length) :
    writeLoop false n received written =
      (written ++ (received.take n).map row, .completed) := by
  induction n generalizing received written with
  | zero => simp [writeLoop]
  | succ n ih =>
    cases received with
    | nil => simp at h
    | cons r rest =>
      have h' : n ≤ rest.length := by simpa using h
      simp [writeLoop, ih rest _ h']

theorem wrapInt_eq {x : Int} (h0 : 0 ≤ x) (h1 : x < 2 ^ 63) : wrapInt x = x := by
  unfold wrapInt
  norm_num at h1 ⊢
  omega

theorem sum_map_const (l : List Generator) (f : Generator → Nat) (n : Nat)
    (h : ∀ gen ∈ l, f gen = n) : (l.map f).sum = n * l.length := by
  induction l with
  | nil => simp
  | cons a l ih =>
    simp only [List.map_cons, List.sum_cons, List.length_cons,
      h a (List.mem_cons_self _ _), ih (fun gen hg => h gen (List.mem_cons_of_mem _ hg))]
    ring

/-- C8, as stated, fails: with `-run 4611686018427387904` and all seven generators
started, `N` is non-negative and each generator is set to send `N` results, but the
product `testsToRun*tests` wraps around to a negative `int`, so the loop of line 614
runs no iteration and no data row is written after the header. -/
theorem runTests_overflow_counterexample :
    overflowConfig.exitOnFail = false ∧ 0 ≤ overflowConfig.testsToRun ∧
      (startTests overflowConfig).goroutines.length = 7 ∧
      (∀ gen ∈ (startTests overflowConfig).goroutines,
        (gen.run overflowConfig.testsToRun (constTape 0)).length = 2 ^ 62) ∧
      wrapInt (overflowConfig.testsToRun * (startTests overflowConfig).tests) = -(2 ^ 62) ∧
      runTests overflowConfig [⟨true, true, "-aaAA00-"⟩, ⟨false, false, "-aa00-"⟩] =
        some ([headerRow], .completed) ∧
      ¬ ((([headerRow].length - 1 : Nat) : Int) =
        overflowConfig.testsToRun * (startTests overflowConfig).goroutines.length) := by
  refine ⟨rfl, by decide, by decide, ?_, by decide, by decide, by decide⟩
  intro gen _
  rw [run_length]
  rfl

theorem loopBound_eq (cfg : Config) (hN : 0 ≤ cfg.testsToRun)
    (hov : cfg.testsToRun * (startTests cfg).goroutines.length < 2 ^ 63) :
    loopBound cfg = cfg.testsToRun.toNat * (startTests cfg).goroutines.length := by
  have h0 : 0 ≤ cfg.testsToRun * ((startTests cfg).goroutines.length : Int) :=
    Int.mul_nonneg hN (Int.ofNat_nonneg _)
  rw [loopBound, startTests_tests, wrapInt_eq h0 hov]
  have e : cfg.testsToRun = (cfg.testsToRun.toNat : Int) := (Int.toNat_of_nonneg hN).symm
  rw [e, ← Int.ofNat_mul, Int.toNat_ofNat, ← e]

/-- C8, amended. In a run without fail-fast with `N = testsToRun >= 0` and
`N x (number of generators started)` at most `2^63 - 1`: every started generator sends
exactly `N` results, so `N x (number of generators started)` results are sent in all;
the loop consumes exactly that many of the values the channel delivers and hands one
record for each to the writer after the header, so the number of data rows is
`N x (number of generators started)`. -/
theorem runTests_row_count (cfg : Config) (tapes : Generator → Src)
    (received : List testResults) (hT : cfg.doTests = true) (hx : cfg.exitOnFail = false)
    (hN : 0 ≤ cfg.testsToRun)
    (hov : cfg.testsToRun * (startTests cfg).goroutines.length < 2 ^ 63)
    (hr : cfg.testsToRun.toNat * (startTests cfg).goroutines.length ≤ received.length) :
    (∀ gen ∈ (startTests cfg).goroutines,
      (gen.run cfg.testsToRun (tapes gen)).length = cfg.testsToRun.toNat) ∧
    (((startTests cfg).goroutines.map
      (fun gen => (gen.run cfg.testsToRun (tapes gen)).length)).sum =
        cfg.testsToRun.toNat * (startTests cfg).goroutines.length) ∧
    runTests cfg received =
      some (headerRow ::
        (received.take (cfg.testsToRun.toNat * (startTests cfg).goroutines.length)).map row,
        .completed) ∧
    ((received.take (cfg.testsToRun.toNat * (startTests cfg).goroutines.length)).map
      row).length = cfg.testsToRun.toNat * (startTests cfg).goroutines.length := by
  refine ⟨fun gen _ => run_length gen _ _, ?_, ?_, ?_⟩
  · exact sum_map_const _ _ _ (fun gen _ => run_length gen _ _)
  · rw [runTests, if_pos hT, hx, loopBound_eq cfg hN hov, writeLoop_no_exit _ _ _ hr]
    rfl
  · rw [List.length_map, List.length_take]
    omega

theorem runTests_row_count_witness :
    (plainConfig.doTests = true ∧ plainConfig.exitOnFail = false ∧
      0 ≤ plainConfig.testsToRun ∧
      plainConfig.testsToRun * (startTests plainConfig).goroutines.length < 2 ^ 63 ∧
      plainConfig.testsToRun.toNat * (startTests plainConfig).goroutines.length ≤
        (shouldFailUpper 2 (constTape 0) ++ shouldFailLength 2 (constTape 5)).length) ∧
    ((∀ gen ∈ (startTests plainConfig).goroutines,
      (gen.run plainConfig.testsToRun (constTape 0)).length =
        plainConfig.testsToRun.toNat) ∧
    (((startTests plainConfig).goroutines.map
      (fun gen => (gen.run plainConfig.testsToRun (constTape 0)).length)).sum =
        plainConfig.testsToRun.toNat * (startTests plainConfig).goroutines.length) ∧
    runTests plainConfig (shouldFailUpper 2 (constTape 0) ++ shouldFailLength 2 (constTape 5)) =
      some (headerRow ::
        ((shouldFailUpper 2 (constTape 0) ++ shouldFailLength 2 (constTape 5)).take
          (plainConfig.testsToRun.toNat * (startTests plainConfig).goroutines.length)).map row,
        .completed) ∧
    (((shouldFailUpper 2 (constTape 0) ++ shouldFailLength 2 (constTape 5)).take
      (plainConfig.testsToRun.toNat * (startTests plainConfig).goroutines.length)).map
        row).length = plainConfig.testsToRun.toNat * (startTests plainConfig).goroutines.length) :=
  ⟨⟨by decide, by decide, by decide, by decide, by decide⟩,
    runTests_row_count plainConfig (fun _ => constTape 0) _ (by decide) (by decide)
      (by decide) (by decide) (by decide)⟩

theorem writeLoop_exit (n : Nat) (pre post : List testResults) (r : testResults)
    (written : List (List String)) (hn : pre.length < n)
    (hpre : ∀ x ∈ pre, x.expectedResult = x.actualResult)
    (hr : r.expectedResult ≠ r.actualResult) :
    writeLoop true n (pre ++ r :: post) written =
      (written ++ (pre ++ [r]).map row, .exited 1) := by
  induction pre generalizing n written with
  | nil =>
    cases n with
    | zero => simp at hn
    | succ n => simp [writeLoop, hr]
  | cons x pre ih =>
    cases n with
    | zero => simp at hn
    | succ n =>
      have hx : x.expectedResult = x.actualResult := hpre x (List.mem_cons_self _ _)
      have hn' : pre.length < n := by simpa using hn
      have := ih n (written ++ [row x]) hn' (fun y hy => hpre y (List.mem_cons_of_mem _ hy))
      simp [writeLoop, hx, this]

theorem writeLoop_all_agree (n : Nat) (received : List testResults)
    (written : List (List String)) (exitOnFail : Bool) (hn : n ≤ received.length)
    (hall : ∀ x ∈ received, x.expectedResult = x.actualResult) :
    writeLoop exitOnFail n received written =
      (written ++ (received.take n).map row, .completed) := by
  induction n generalizing received written with
  | zero => simp [writeLoop]
  | succ n ih =>
    cases received with
    | nil => simp at hn
    | cons r rest =>
      have h' : n ≤ rest.length := by simpa using hn
      have hr : r.expectedResult = r.actualResult := hall r (List.mem_cons_self _ _)
      simp [writeLoop, hr, ih rest _ h' (fun y hy => hall y (List.mem_cons_of_mem _ hy))]

theorem runTests_exitOnFail_of_bound (cfg : Config) (received : List testResults)
    (hT : cfg.doTests = true) (hx : cfg.exitOnFail = true)
    (hlen : received.length = loopBound cfg) :
    (∀ (pre post : List testResults) (r : testResults), received = pre ++ r :: post →
      (∀ x ∈ pre, x.expectedResult = x.actualResult) → r.expectedResult ≠ r.actualResult →
      runTests cfg received = some (headerRow :: (pre ++ [r]).map row, .exited 1)) ∧
    ((∀ x ∈ received, x.expectedResult = x.actualResult) →
      runTests cfg received = some (headerRow :: received.map row, .completed)) := by
  constructor
  · intro pre post r he hpre hr
    have hn : pre.length < loopBound cfg := by
      rw [← hlen, he, List.length_append, List.length_cons]
      omega
    rw [runTests, if_pos hT, hx, he, writeLoop_exit _ _ _ _ _ hn hpre hr]
    rfl
  · intro hall
    rw [runTests, if_pos hT, writeLoop_all_agree _ _ _ _ (Nat.le_of_eq hlen.symm) hall,
      ← hlen, List.take_length]
    rfl

/-- C9, as stated, fails: with exit-on-fail, `-run 4611686018427387904` and all seven
generators started, each generator is set to send `N = 2^62` results and no result
mismatches, but the product `testsToRun*tests` wraps around to a negative `int`, so
the loop of line 614 completes without an iteration and none of the `N x tests`
results is written after the header. -/
theorem runTests_exitOnFail_overflow_counterexample :
    overflowFailFastConfig.exitOnFail = true ∧ 0 ≤ overflowFailFastConfig.testsToRun ∧
      (startTests overflowFailFastConfig).goroutines.length = 7 ∧
      (∀ gen ∈ (startTests overflowFailFastConfig).goroutines,
        (gen.run overflowFailFastConfig.testsToRun (constTape 0)).length = 2 ^ 62) ∧
      (∀ x ∈ ([⟨true, true, "-aaAA00-"⟩, ⟨false, false, "-aa00-"⟩] : List testResults),
        x.expectedResult = x.actualResult) ∧
      runTests overflowFailFastConfig [⟨true, true, "-aaAA00-"⟩, ⟨false, false, "-aa00-"⟩] =
        some ([headerRow], .completed) ∧
      ¬ ((([headerRow].length - 1 : Nat) : Int) =
        overflowFailFastConfig.testsToRun *
          (startTests overflowFailFastConfig).goroutines.length) := by
  refine ⟨rfl, by decide, by decide, ?_, by decide, by decide, by decide⟩
  intro gen _
  rw [run_length]
  rfl

/-- C9, amended. With exit-on-fail, `N = testsToRun >= 0` and `N x tests` at most
`2^63 - 1` (`tests` the number of generators started), for every sequence of
`N x tests` results received by the loop: if a result mismatches, the run ends with
`os.Exit(1)` at the first mismatching result and the records handed to the writer
after the header are exactly the results up to and including it; if no result
mismatches, a record is written for each of the `N x tests` results and the loop
completes. -/
theorem runTests_exitOnFail (cfg : Config) (received : List testResults)
    (hT : cfg.doTests = true) (hx : cfg.exitOnFail = true) (hN : 0 ≤ cfg.testsToRun)
    (hov : cfg.testsToRun * (startTests cfg).goroutines.length < 2 ^ 63)
    (hlen : received.length = cfg.testsToRun.toNat * (startTests cfg).goroutines.length) :
    (∀ (pre post : List testResults) (r : testResults), received = pre ++ r :: post →
      (∀ x ∈ pre, x.expectedResult = x.actualResult) → r.expectedResult ≠ r.actualResult →
      runTests cfg received = some (headerRow :: (pre ++ [r]).map row, .exited 1)) ∧
    ((∀ x ∈ received, x.expectedResult = x.actualResult) →
      runTests cfg received = some (headerRow :: received.map row, .completed) ∧
      (received.map row).length =
        cfg.testsToRun.toNat * (startTests cfg).goroutines.length) := by
  have hb : received.length = loopBound cfg := by rw [loopBound_eq cfg hN hov, hlen]
  have h := runTests_exitOnFail_of_bound cfg received hT hx hb
  exact ⟨h.1, fun hall => ⟨h.2 hall, by rw [List.length_map, hlen]⟩⟩

theorem runTests_exitOnFail_witness :
    (failFastConfig.doTests = true ∧ failFastConfig.exitOnFail = true ∧
      0 ≤ failFastConfig.testsToRun ∧
      failFastConfig.testsToRun * (startTests failFastConfig).goroutines.length < 2 ^ 63 ∧
      ([⟨false, false, "-aa00-"⟩, ⟨false, true, "Aa1$Aa1$"⟩, ⟨false, false, "-"⟩,
        ⟨false, false, "--"⟩] : List testResults).length =
          failFastConfig.testsToRun.toNat * (startTests failFastConfig).goroutines.length) ∧
    runTests failFastConfig
        [⟨false, false, "-aa00-"⟩, ⟨false, true, "Aa1$Aa1$"⟩, ⟨false, false, "-"⟩,
          ⟨false, false, "--"⟩] =
      some (headerRow ::
        ([(⟨false, false, "-aa00-"⟩ : testResults)] ++
          [(⟨false, true, "Aa1$Aa1$"⟩ : testResults)]).map row,
        .exited 1) :=
  ⟨⟨by decide, by decide, by decide, by decide, by decide⟩,
    (runTests_exitOnFail failFastConfig _ (by decide) (by decide) (by decide) (by decide)
      (by decide)).1
      [(⟨false, false, "-aa00-"⟩ : testResults)]
      [(⟨false, false, "-"⟩ : testResults), (⟨false, false, "--"⟩ : testResults)]
      (⟨false, true, "Aa1$Aa1$"⟩ : testResults) rfl (by decide) (by decide)⟩

theorem evalLoop_succ (ToLower : String → String) (fuel : Nat) (reader : Reader)
    (line : List String) (err : ReadErr) (failed total : Nat) :
    evalLoop ToLower (fuel + 1) reader line err failed total =
      if err = .EOF then some (.done failed total)
      else if line.length < 2 then some .rangePanic
      else if reader.Read.2.1 ≠ .nil ∧ reader.Read.2.1 ≠ .EOF then some .fatal
      else evalLoop ToLower fuel reader.Read.2.2 reader.Read.1 reader.Read.2.1
        (if mismatch ToLower line = true then failed + 1 else failed) (total + 1) := by
  rw [evalLoop]
  rfl

theorem Read_nil (fpr : Int) : Reader.Read { FieldsPerRecord := fpr, records := [] } =
    ([], .EOF, { FieldsPerRecord := fpr, records := [] }) := rfl

theorem Read_cons_same (fpr : Nat) (h : 0 < fpr) (r : List String) (rest : List (List String))
    (hr : r.length = fpr) :
    Reader.Read { FieldsPerRecord := fpr, records := r :: rest } =
      (r, .nil, { FieldsPerRecord := fpr, records := rest }) := by
  have hpos : (0 : Int) < (fpr : Int) := by omega
  simp [Reader.Read, hpos, hr]

theorem Read_cons_other (fpr : Nat) (h : 0 < fpr) (r : List String)
    (rest : List (List String)) (hr : r.length ≠ fpr) :
    Reader.Read { FieldsPerRecord := fpr, records := r :: rest } =
      (r, .ErrFieldCount, { FieldsPerRecord := fpr, records := rest }) := by
  have hpos : (0 : Int) < (fpr : Int) := by omega
  simp [Reader.Read, hpos, hr]

theorem evalLoop_uniform (ToLower : String → String) (fpr : Nat) (hf : 2 ≤ fpr)
    (rest : List (List String)) (line : List String) (fuel failed total : Nat)
    (hline : line.length = fpr) (hrest : ∀ r ∈ rest, r.length = fpr)
    (hfuel : rest.length + 2 ≤ fuel) :
    evalLoop ToLower fuel { FieldsPerRecord := fpr, records := rest } line .nil failed total =
      some (.done (failed + ((line :: rest).filter (mismatch ToLower)).length)
        (total + (line :: rest).length)) := by
  induction rest generalizing line fuel failed total with
  | nil =>
    obtain ⟨f, rfl⟩ : ∃ f, fuel = f + 2 := ⟨fuel - 2, by simp at hfuel; omega⟩
    have hl : ¬ line.length < 2 := by omega
    rw [evalLoop_succ, if_neg (by decide), if_neg hl, Read_nil, if_neg (by simp),
      evalLoop_succ, if_pos rfl]
    by_cases hm : mismatch ToLower line = true
    · simp [hm, List.filter_cons]
    · simp [hm, List.filter_cons]
  | cons r rest ih =>
    obtain ⟨f, rfl⟩ : ∃ f, fuel = f + 1 := ⟨fuel - 1, by simp at hfuel; omega⟩
    have hl : ¬ line.length < 2 := by omega
    have hr : r.length = fpr := hrest r (List.mem_cons_self _ _)
    have hfuel' : rest.length + 2 ≤ f := by simp at hfuel; omega
    have hrest' : ∀ x ∈ rest, x.length = fpr := fun x hx => hrest x (List.mem_cons_of_mem _ hx)
    rw [evalLoop_succ, if_neg (by decide), if_neg hl, Read_cons_same fpr (by omega) r rest hr,
      if_neg (by simp), ih r f _ _ hr hrest' hfuel']
    by_cases hm : mismatch ToLower line = true
    · rw [if_pos hm, List.filter_cons_of_pos hm]
      simp only [List.length_cons]
      congr 2
      all_goals omega
    · rw [if_neg hm, List.filter_cons_of_neg hm]
      simp only [List.length_cons]
      congr 2
      all_goals omega

/-- C10, as stated, fails on two files of the stated form. A data row of two fields
after the three-field header makes the reader return `ErrFieldCount`, and the
evaluation is aborted by `log.Fatal` instead of counting the row and exiting with the
mismatch count 0; and on a file holding only the header the division of line 703
panics after the total 0 is printed, so `os.Exit` is not reached. -/
theorem evaluate_counterexample :
    evaluate asciiToLower [["password", "expected", "actual"], ["true", "true"]] =
        some .fatal ∧
      (∀ r ∈ [["true", "true"]], 2 ≤ r.length) ∧
      mismatch asciiToLower ["true", "true"] = false ∧
      evaluate asciiToLower [["password", "expected", "actual"], ["true", "true"]] ≠
        some (.exit 1 1 100 0) ∧
      evaluate asciiToLower [["password", "expected", "actual"]] = some (.dividePanic 0) := by
  decide

/-- C10, amended. For every results file made of a header row of at least two fields
followed by at least one data row, every data row having as many fields as the
header: the total the evaluator reports is the number of data rows, the mismatch count
is the number of data rows whose last two fields differ after lower-casing, and the
status passed to `os.Exit` is the mismatch count, which is 0 exactly when no row
mismatches; `"TRUE"` and `"true"` agree after lower-casing. -/
theorem evaluate_counts (ToLower : String → String) (header : List String)
    (rows : List (List String)) (hh : 2 ≤ header.length) (hne : rows ≠ [])
    (hrows : ∀ r ∈ rows, r.length = header.length) :
    evaluate ToLower (header :: rows) =
        some (.exit rows.length (rows.length - (rows.filter (mismatch ToLower)).length)
          ((rows.length - (rows.filter (mismatch ToLower)).length) / rows.length * 100)
          (rows.filter (mismatch ToLower)).length) ∧
      ((rows.filter (mismatch ToLower)).length = 0 ↔
        ∀ r ∈ rows, mismatch ToLower r = false) ∧
      mismatch asciiToLower ["x", "TRUE", "true"] = false := by
  refine ⟨?_, ?_, by decide⟩
  · cases rows with
    | nil => exact absurd rfl hne
    | cons r rest =>
      have hr : r.length = header.length := hrows r (List.mem_cons_self _ _)
      have hrest : ∀ x ∈ rest, x.length = header.length :=
        fun x hx => hrows x (List.mem_cons_of_mem _ hx)
      have h1 : Reader.Read { FieldsPerRecord := 0, records := header :: r :: rest } =
          (header, .nil, { FieldsPerRecord := header.length, records := r :: rest }) := by
        simp [Reader.Read]
      have h2 := Read_cons_same header.length (by omega) r rest hr
      have h3 := evalLoop_uniform ToLower header.length hh rest r
        ((header :: r :: rest).length + 1) 0 0 hr hrest (by simp)
      rw [evaluate]
      simp only [h1, h2, h3, ne_eq, not_true_eq_false, if_false, false_and, Nat.zero_add]
      rw [if_neg (by simp)]
  · rw [List.length_eq_zero, List.filter_eq_nil_iff]
    simp

theorem evaluate_counts_witness :
    (2 ≤ ["password", "expected", "actual"].length ∧
      [["-aa00-", "false", "FALSE"], ["Aa1$Aa1$", "false", "true"]] ≠ [] ∧
      ∀ r ∈ [["-aa00-", "false", "FALSE"], ["Aa1$Aa1$", "false", "true"]],
        r.length = ["password", "expected", "actual"].length) ∧
    evaluate asciiToLower
      (["password", "expected", "actual"] ::
        [["-aa00-", "false", "FALSE"], ["Aa1$Aa1$", "false", "true"]]) =
      some (.exit 2 1 0 1) :=
  ⟨⟨by decide, by decide, by decide⟩,
    (evaluate_counts asciiToLower ["password", "expected", "actual"]
      [["-aa00-", "false", "FALSE"], ["Aa1$Aa1$", "false", "true"]]
      (by decide) (by decide) (by decide)).1⟩

theorem evaluate_eq_summary (ToLower : String → String) (file : List (List String)) :
    evaluate ToLower file = (countTests ToLower file).map summary := by
  unfold evaluate countTests
  simp only []
  split_ifs
  · rfl
  · rfl
  · cases h : evalLoop ToLower (file.length + 1)
        (Reader.Read (Reader.Read { FieldsPerRecord := 0, records := file }).2.2).2.2
        (Reader.Read (Reader.Read { FieldsPerRecord := 0, records := file }).2.2).1
        (Reader.Read (Reader.Read { FieldsPerRecord := 0, records := file }).2.2).2.1 0 0 with
    | none => rfl
    | some res =>
      cases res with
      | fatal => rfl
      | rangePanic => rfl
      | done f t =>
        simp only [Option.map_some', summary, passPercent]
        split_ifs <;> rfl

theorem mismatch_row (ToLower : String → String) (h : ToLower "true" ≠ ToLower "false")
    (r : testResults) : mismatch ToLower (row r) = disagrees r := by
  have e : mismatch ToLower (row r) =
      (ToLower (sprintBool r.expectedResult) != ToLower (sprintBool r.actualResult)) := rfl
  rw [e, disagrees]
  cases r.expectedResult <;> cases r.actualResult <;> simp [sprintBool, h, Ne.symm h]

theorem filter_mismatch_map_row (ToLower : String → String)
    (h : ToLower "true" ≠ ToLower "false") (results : List testResults) :
    ((results.map row).filter (mismatch ToLower)).length = (results.filter disagrees).length := by
  induction results with
  | nil => rfl
  | cons r rest ih =>
    rw [List.map_cons]
    by_cases hd : disagrees r = true
    · rw [List.filter_cons_of_pos (by rw [mismatch_row ToLower h]; exact hd),
        List.filter_cons_of_pos hd, List.length_cons, List.length_cons, ih]
    · rw [List.filter_cons_of_neg (by rw [mismatch_row ToLower h]; exact hd),
        List.filter_cons_of_neg hd, ih]

theorem countTests_uniform (ToLower : String → String) (header : List String)
    (rows : List (List String)) (hh : 2 ≤ header.length)
    (hrows : ∀ r ∈ rows, r.length = header.length) :
    countTests ToLower (header :: rows) =
      some (.done (rows.filter (mismatch ToLower)).length rows.length) := by
  have h1 : Reader.Read { FieldsPerRecord := 0, records := header :: rows } =
      (header, .nil, { FieldsPerRecord := header.length, records := rows }) := by
    simp [Reader.Read]
  cases rows with
  | nil =>
    rw [countTests]
    simp only [h1, Read_nil, ne_eq, not_true_eq_false, if_false, and_false, List.length_cons,
      List.length_nil]
    rw [evalLoop_succ, if_pos rfl]
    rfl
  | cons r rest =>
    have hr : r.length = header.length := hrows r (List.mem_cons_self _ _)
    have hrest : ∀ x ∈ rest, x.length = header.length :=
      fun x hx => hrows x (List.mem_cons_of_mem _ hx)
    have h2 := Read_cons_same header.length (by omega) r rest hr
    have h3 := evalLoop_uniform ToLower header.length hh rest r
      ((header :: r :: rest).length + 1) 0 0 hr hrest (by simp)
    rw [countTests]
    simp only [h1, h2, h3, ne_eq, not_true_eq_false, if_false, false_and, Nat.zero_add]

/-- C11. Round trip: for every list of results, the evaluator's counting on the header
followed by the records the orchestrator builds for the results (password, `%t` of
expected, `%t` of actual) ends with a total equal to the length of the list and a
mismatch count equal to the number of results with `expectedResult != actualResult`;
lower-casing is any function that keeps `"true"` and `"false"` apart, as
`strings.ToLower` does. -/
theorem countTests_roundtrip (ToLower : String → String) (results : List testResults)
    (h : ToLower "true" ≠ ToLower "false") :
    countTests ToLower (headerRow :: results.map row) =
      some (.done (results.filter disagrees).length results.length) := by
  rw [countTests_uniform ToLower headerRow (results.map row) (by decide)
    (by intro r hr; obtain ⟨x, -, rfl⟩ := List.mem_map.1 hr; rfl),
    filter_mismatch_map_row ToLower h, List.length_map]

theorem countTests_roundtrip_witness :
    asciiToLower "true" ≠ asciiToLower "false" ∧
      countTests asciiToLower (headerRow ::
        ([⟨false, false, "-aa00-"⟩, ⟨false, true, "Aa1$Aa1$"⟩, ⟨true, true, "-aaAA00-"⟩] :
          List testResults).map row) = some (.done 1 3) :=
  ⟨by decide, countTests_roundtrip asciiToLower
    [⟨false, false, "-aa00-"⟩, ⟨false, true, "Aa1$Aa1$"⟩, ⟨true, true, "-aaAA00-"⟩]
    (by decide)⟩

theorem evalLoop_fieldCount (ToLower : String → String) (fpr : Nat) (hf : 2 ≤ fpr)
    (pre : List (List String)) (bad : List String) (post : List (List String))
    (line : List String) (fuel failed total : Nat) (hline : line.length = fpr)
    (hpre : ∀ r ∈ pre, r.length = fpr) (hbad : bad.length ≠ fpr)
    (hfuel : pre.length + 1 ≤ fuel) :
    evalLoop ToLower fuel { FieldsPerRecord := fpr, records := pre ++ bad :: post } line .nil
      failed total = some .fatal := by
  induction pre generalizing line fuel failed total with
  | nil =>
    obtain ⟨f, rfl⟩ : ∃ f, fuel = f + 1 := ⟨fuel - 1, by simp at hfuel; omega⟩
    have hl : ¬ line.length < 2 := by omega
    rw [evalLoop_succ, if_neg (by decide), if_neg hl, List.nil_append,
      Read_cons_other fpr (by omega) bad post hbad, if_pos (by simp)]
  | cons r pre ih =>
    obtain ⟨f, rfl⟩ : ∃ f, fuel = f + 1 := ⟨fuel - 1, by simp at hfuel; omega⟩
    have hl : ¬ line.length < 2 := by omega
    have hr : r.length = fpr := hpre r (List.mem_cons_self _ _)
    have hfuel' : pre.length + 1 ≤ f := by simp at hfuel; omega
    rw [evalLoop_succ, if_neg (by decide), if_neg hl, List.cons_append,
      Read_cons_same fpr (by omega) r _ hr, if_neg (by simp),
      ih r f _ _ hr (fun x hx => hpre x (List.mem_cons_of_mem _ hx)) hfuel']

theorem countTests_fieldCount (ToLower : String → String) (header : List String)
    (pre : List (List String)) (bad : List String) (post : List (List String))
    (hh : 2 ≤ header.length) (hpre : ∀ r ∈ pre, r.length = header.length)
    (hbad : bad.length ≠ header.length) :
    countTests ToLower (header :: (pre ++ bad :: post)) = some .fatal := by
  have h1 : ∀ rows, Reader.Read { FieldsPerRecord := 0, records := header :: rows } =
      (header, .nil, { FieldsPerRecord := header.length, records := rows }) := by
    intro rows
    simp [Reader.Read]
  cases pre with
  | nil =>
    rw [countTests]
    simp only [h1, List.nil_append, Read_cons_other header.length (by omega) bad post hbad,
      ne_eq, not_true_eq_false, if_false]
    rw [if_pos (by simp)]
  | cons r pre =>
    have hr : r.length = header.length := hpre r (List.mem_cons_self _ _)
    have h2 := Read_cons_same header.length (by omega) r (pre ++ bad :: post) hr
    have h3 := evalLoop_fieldCount ToLower header.length hh pre bad post r
      ((header :: r :: (pre ++ bad :: post)).length + 1) 0 0 hr
      (fun x hx => hpre x (List.mem_cons_of_mem _ hx)) hbad (by simp; omega)
    rw [countTests]
    simp only [h1, List.cons_append, h2, h3, ne_eq, not_true_eq_false, if_false, false_and]

theorem exists_first_bad (n : Nat) (rows : List (List String))
    (h : ∃ r ∈ rows, r.length ≠ n) :
    ∃ pre bad post, rows = pre ++ bad :: post ∧ (∀ r ∈ pre, r.length = n) ∧
      bad.length ≠ n := by
  induction rows with
  | nil => simp at h
  | cons r rest ih =>
    by_cases hr : r.length = n
    · obtain ⟨x, hx, hxn⟩ := h
      have hrest : ∃ y ∈ rest, y.length ≠ n := by
        rcases List.mem_cons.1 hx with rfl | hx'
        · exact absurd hr hxn
        · exact ⟨x, hx', hxn⟩
      obtain ⟨pre, bad, post, he, hp, hb⟩ := ih hrest
      refine ⟨r :: pre, bad, post, by rw [he]; rfl, ?_, hb⟩
      intro y hy
      rcases List.mem_cons.1 hy with rfl | hy'
      · exact hr
      · exact hp y hy'
    · exact ⟨[], r, rest, rfl, by simp, hr⟩

/-- C12, as stated, fails: a data row of three fields whose expected and actual fields
are not textual booleans is not rejected; the evaluator counts it and reports a
summary, here a total of 2 with one mismatch. -/
theorem evaluate_nonboolean_counterexample :
    evaluate asciiToLower
        [["password", "expected", "actual"], ["-aa00-", "maybe", "maybe"],
          ["Aa1$Aa1$", "yes", "no"]] =
      some (.exit 2 1 0 1) := by
  decide

/-- C12, amended. For every results file with a three-field header that contains a
data row whose number of fields is not three, the evaluator aborts with `log.Fatal`
instead of counting that row and reporting a summary. A data row of three fields is
never rejected for the text of its fields: a file whose data rows (at least one) all
have three fields is counted and summarised whatever the fields hold. -/
theorem evaluate_malformed (ToLower : String → String) (header : List String)
    (rows : List (List String)) (hh : header.length = 3) :
    ((∃ r ∈ rows, r.length ≠ 3) → evaluate ToLower (header :: rows) = some .fatal) ∧
    (rows ≠ [] → (∀ r ∈ rows, r.length = 3) →
      evaluate ToLower (header :: rows) =
        some (.exit rows.length (rows.length - (rows.filter (mismatch ToLower)).length)
          (passPercent rows.length (rows.filter (mismatch ToLower)).length)
          (rows.filter (mismatch ToLower)).length)) := by
  constructor
  · intro hbad
    obtain ⟨pre, bad, post, he, hp, hb⟩ := exists_first_bad 3 rows hbad
    rw [evaluate_eq_summary, he, countTests_fieldCount ToLower header pre bad post
      (by omega) (by rw [hh]; exact hp) (by rw [hh]; exact hb)]
    rfl
  · intro hne hall
    rw [evaluate_eq_summary, countTests_uniform ToLower header rows (by omega)
      (by rw [hh]; exact hall)]
    have : rows.length ≠ 0 := fun h => hne (List.length_eq_zero.1 h)
    simp only [Option.map_some', summary, if_neg this]

theorem evaluate_malformed_witness :
    (["password", "expected", "actual"].length = 3 ∧
      ∃ r ∈ [["-aa00-", "false", "false"], ["Aa1$Aa1$", "false"]], r.length ≠ 3) ∧
    evaluate asciiToLower
      (["password", "expected", "actual"] ::
        [["-aa00-", "false", "false"], ["Aa1$Aa1$", "false"]]) = some .fatal :=
  ⟨⟨by decide, by decide⟩,
    (evaluate_malformed asciiToLower ["password", "expected", "actual"]
      [["-aa00-", "false", "false"], ["Aa1$Aa1$", "false"]] (by decide)).1 (by decide)⟩

/-- C13. Length boundary of `runRegexp`: every string of fewer than 8 characters is
rejected, in particular the empty string and every string of 7 legal characters with
all four classes present; every string of exactly 8 legal characters that contains an
uppercase letter, a lowercase letter, a digit and a legal special is accepted. -/
theorem runRegexp_length_boundary :
    (∀ s : String, s.length < 8 → runRegexp s = false) ∧
    runRegexp "" = false ∧
    (∀ s : String, s.length = 7 → (∀ c ∈ s.data, isLegal c = true) →
      (∃ c ∈ s.data, isUpper c = true) → (∃ c ∈ s.data, isLower c = true) →
      (∃ c ∈ s.data, isDigit c = true) → (∃ c ∈ s.data, isLegalSpecial c = true) →
      runRegexp s = false) ∧
    (∀ s : String, s.length = 8 → (∀ c ∈ s.data, isLegal c = true) →
      (∃ c ∈ s.data, isUpper c = true) → (∃ c ∈ s.data, isLower c = true) →
      (∃ c ∈ s.data, isDigit c = true) → (∃ c ∈ s.data, isLegalSpecial c = true) →
      runRegexp s = true) := by
  refine ⟨fun s h => runRegexp_short h, runRegexp_short (by decide), ?_, ?_⟩
  · intro s h _ _ _ _ _
    exact runRegexp_short (by rw [show s.data.length = s.length from rfl, h]; decide)
  · intro s h hall hU hL hD hS
    rw [runRegexp_eq_true_iff]
    exact ⟨by rw [show s.data.length = s.length from rfl, h], hall, hU, hL, hD, hS⟩

theorem runRegexp_length_boundary_witness :
    ("Aa1$Aa1".length = 7 ∧ runRegexp "Aa1$Aa1" = false) ∧
      ("Aa1$Aa1$".length = 8 ∧ runRegexp "Aa1$Aa1$" = true) :=
  ⟨⟨by decide, runRegexp_length_boundary.2.2.1 "Aa1$Aa1" (by decide) (by decide) (by decide)
      (by decide) (by decide) (by decide)⟩,
    ⟨by decide, runRegexp_length_boundary.2.2.2 "Aa1$Aa1$" (by decide) (by decide) (by decide)
      (by decide) (by decide) (by decide)⟩⟩

/-- C14. A character outside the four legal classes inserted at any position of an
accepted password gives a rejected string; `"Aa1$Aa1$x"` is accepted and `"Aa1$Aa1$#"`
is rejected. -/
theorem runRegexp_insert_illegal (p : String) (i : Nat) (c : Char)
    (_hp : runRegexp p = true) (_hi : i ≤ p.length)
    (hc : ¬ (isUpper c = true ∨ isLower c = true ∨ isDigit c = true ∨
      isLegalSpecial c = true)) :
    runRegexp (insertRune p i c) = false ∧
      runRegexp "Aa1$Aa1$x" = true ∧ runRegexp "Aa1$Aa1$#" = false := by
  refine ⟨?_, by decide, by decide⟩
  rw [Bool.eq_false_iff]
  intro ht
  rw [runRegexp_eq_true_iff] at ht
  have hmem : c ∈ (insertRune p i c).data := by
    show c ∈ p.data.take i ++ c :: p.data.drop i
    simp
  have := ht.2.1 c hmem
  apply hc
  simpa [isLegal, or_assoc] using this

theorem runRegexp_insert_illegal_witness :
    (runRegexp "Aa1$Aa1$" = true ∧ 3 ≤ "Aa1$Aa1$".length ∧
      ¬ (isUpper '#' = true ∨ isLower '#' = true ∨ isDigit '#' = true ∨
        isLegalSpecial '#' = true)) ∧
    (runRegexp (insertRune "Aa1$Aa1$" 3 '#') = false ∧
      runRegexp "Aa1$Aa1$x" = true ∧ runRegexp "Aa1$Aa1$#" = false) :=
  ⟨⟨by decide, by decide, by decide⟩,
    runRegexp_insert_illegal "Aa1$Aa1$" 3 '#' (by decide) (by decide) (by decide)⟩

/-- C15. Shuffle invariance: `runRegexp` gives the same verdict on two strings whose
characters are a permutation of one another; in particular every permutation of an
accepted password is accepted. -/
theorem runRegexp_perm (s t : String) (h : t.data.Perm s.data) :
    runRegexp t = runRegexp s ∧ (runRegexp s = true → runRegexp t = true) := by
  have key : runRegexp t = true ↔ runRegexp s = true := by
    rw [runRegexp_eq_true_iff, runRegexp_eq_true_iff, h.length_eq]
    simp only [h.mem_iff]
  exact ⟨Bool.eq_iff_iff.2 key, key.2⟩

theorem runRegexp_perm_witness :
    "$1aA$1aA".data.Perm "Aa1$Aa1$".data ∧
      (runRegexp "$1aA$1aA" = runRegexp "Aa1$Aa1$" ∧
        (runRegexp "Aa1$Aa1$" = true → runRegexp "$1aA$1aA" = true)) :=
  ⟨by decide, runRegexp_perm "Aa1$Aa1$" "$1aA$1aA" (by decide)⟩

theorem writeLoop_written (exitOnFail : Bool) (n : Nat) (received : List testResults)
    (written : List (List String)) :
    ∃ k, k ≤ n ∧ (writeLoop exitOnFail n received written).1 =
      written ++ (received.take k).map row := by
  induction n generalizing received written with
  | zero => exact ⟨0, Nat.le_refl _, by simp [writeLoop]⟩
  | succ n ih =>
    cases received with
    | nil => exact ⟨0, Nat.zero_le _, by simp [writeLoop]⟩
    | cons r rest =>
      rw [writeLoop]
      split_ifs
      · exact ⟨1, by omega, by simp⟩
      · obtain ⟨k, hk, he⟩ := ih rest (written ++ [row r])
        exact ⟨k + 1, by omega, by rw [he]; simp⟩

/-- C16. The first record the orchestrator hands to the writer is exactly
`password`, `expected`, `actual`, and every record after it is the record of a
received result, in order; the record of a result has exactly three fields: the
tested password unchanged, then `true` or `false` for `expectedResult`, then `true` or
`false` for `actualResult`. -/
theorem runTests_records (cfg : Config) (received : List testResults)
    (rows : List (List String)) (e : LoopEnd) (h : runTests cfg received = some (rows, e)) :
    rows.head? = some ["password", "expected", "actual"] ∧
      (∃ k, rows = ["password", "expected", "actual"] :: (received.take k).map row) ∧
      ∀ r : testResults,
        row r = [r.testedPassword, if r.expectedResult = true then "true" else "false",
          if r.actualResult = true then "true" else "false"] ∧
        (row r).length = 3 := by
  rw [runTests] at h
  split_ifs at h
  obtain ⟨k, -, hk⟩ := writeLoop_written cfg.exitOnFail (loopBound cfg) received [headerRow]
  have hrows : rows = (writeLoop cfg.exitOnFail (loopBound cfg) received [headerRow]).1 := by
    rw [Option.some.inj h]
  rw [hk] at hrows
  refine ⟨by rw [hrows]; rfl, ⟨k, by rw [hrows]; rfl⟩, fun r => ⟨rfl, rfl⟩⟩

theorem runTests_records_witness :
    runTests failFastConfig
        [⟨false, false, "-aa00-"⟩, ⟨false, true, "Aa1$Aa1$"⟩, ⟨false, false, "-"⟩] =
      some ([["password", "expected", "actual"], ["-aa00-", "false", "false"],
        ["Aa1$Aa1$", "false", "true"]], .exited 1) ∧
    ([["password", "expected", "actual"], ["-aa00-", "false", "false"],
        ["Aa1$Aa1$", "false", "true"]].head? = some ["password", "expected", "actual"]) :=
  ⟨by decide, (runTests_records failFastConfig
    [⟨false, false, "-aa00-"⟩, ⟨false, true, "Aa1$Aa1$"⟩, ⟨false, false, "-"⟩]
    [["password", "expected", "actual"], ["-aa00-", "false", "false"],
      ["Aa1$Aa1$", "false", "true"]] (.exited 1) (by decide)).1⟩

/-- C17. The character sets are disjoint: no entry of `legalChars` is an entry of
`illegalChars`, no character of an entry of either list is an ASCII letter or digit,
and every entry of `illegalChars` is a single character outside the four legal
classes that the alternation of `validPasswordRegex` does not match. -/
theorem charsets_disjoint :
    (∀ x ∈ legalChars, x ∉ illegalChars) ∧
    (∀ x ∈ legalChars ++ illegalChars, ∀ c ∈ x.data,
      isUpper c = false ∧ isLower c = false ∧ isDigit c = false) ∧
    (∀ x ∈ illegalChars, x.length = 1 ∧ (∀ c ∈ x.data, isLegal c = false) ∧
      validPasswordGroup.ends (true, x.data) = [] ∧
      validPasswordGroup.ends (false, x.data) = [] ∧
      FindString validPasswordRegex x = "") := by
  decide

/-- C19. For each of the seven generators and whatever the random draws, every result
sent satisfies `actualResult = runRegexp(testedPassword)`; for `shouldFailLength` the
recorded password is the truncated string, which differs from the shuffled string of
its iteration. -/
theorem actualResult_eq (gen : Generator) (testsToRun : Int) (g : Src) (r : testResults)
    (h : r ∈ gen.run testsToRun g) :
    r.actualResult = runRegexp r.testedPassword ∧
      (gen = .shouldFailLength → ∃ g2 : Src,
        r.testedPassword.data =
          (shouldFailLengthShuffled g2).1.data.take (shouldFailLengthCut g2) ∧
        r.testedPassword ≠ (shouldFailLengthShuffled g2).1) := by
  obtain ⟨g2, hg2⟩ := mem_sendLoop h
  cases gen with
  | shouldPass =>
    obtain ⟨p, g3, _, _, _, _, _, he, -⟩ := shouldPassCase_spec g2
    rw [Generator.body, he] at hg2
    rw [← Option.some.inj hg2]
    exact ⟨rfl, fun hh => by cases hh⟩
  | shouldFailSpecialChars =>
    obtain ⟨p, g3, _, _, _, _, _, he, -⟩ := shouldFailSpecialCharsCase_spec g2
    rw [Generator.body, he] at hg2
    rw [← Option.some.inj hg2]
    exact ⟨rfl, fun hh => by cases hh⟩
  | shouldFailIllegalChars =>
    obtain ⟨p, g3, _, _, _, _, _, he, -⟩ := shouldFailIllegalCharsCase_spec g2
    rw [Generator.body, he] at hg2
    rw [← Option.some.inj hg2]
    exact ⟨rfl, fun hh => by cases hh⟩
  | shouldFailNumber =>
    obtain ⟨p, g3, _, _, _, _, _, he, -⟩ := shouldFailNumberCase_spec g2
    rw [Generator.body, he] at hg2
    rw [← Option.some.inj hg2]
    exact ⟨rfl, fun hh => by cases hh⟩
  | shouldFailUpper =>
    obtain ⟨p, g3, _, _, _, _, _, he, -⟩ := shouldFailUpperCase_spec g2
    rw [Generator.body, he] at hg2
    rw [← Option.some.inj hg2]
    exact ⟨rfl, fun hh => by cases hh⟩
  | shouldFailLower =>
    obtain ⟨p, g3, _, _, _, _, _, he, -⟩ := shouldFailLowerCase_spec g2
    rw [Generator.body, he] at hg2
    rw [← Option.some.inj hg2]
    exact ⟨rfl, fun hh => by cases hh⟩
  | shouldFailLength =>
    rw [Generator.body, shouldFailLengthCase_eq] at hg2
    have hr := (Option.some.inj hg2).symm
    obtain ⟨h8, -, -, hk, -⟩ := shouldFailLength_facts g2
    have hd : r.testedPassword.data =
        (shouldFailLengthShuffled g2).1.data.take (shouldFailLengthCut g2) := by rw [hr]
    refine ⟨by rw [hr], fun _ => ⟨g2, hd, ?_⟩⟩
    intro hcon
    have hl : r.testedPassword.data.length = (shouldFailLengthShuffled g2).1.data.length := by
      rw [hcon]
    rw [hd, List.length_take] at hl
    omega

theorem actualResult_eq_witness :
    (⟨false, false, "||||||"⟩ : testResults) ∈
        Generator.shouldFailLength.run 1 (constTape 5) ∧
      (⟨false, false, "||||||"⟩ : testResults).actualResult = runRegexp "||||||" :=
  ⟨by decide,
    (actualResult_eq .shouldFailLength 1 (constTape 5) ⟨false, false, "||||||"⟩
      (by decide)).1⟩

/-- C20. The pass percentage of the evaluation summary is the integer quotient
`(totalOfTests-failedTests)/totalOfTests` times 100: for every total of at least 1 and
every number of failures between 0 and the total it is 100 when nothing failed and 0
when something failed, in particular whenever the total is less than twice the
failures; this is the percentage the summary reports. -/
theorem passPercent_values (totalOfTests failedTests : Nat) (ht : 1 ≤ totalOfTests)
    (hf : failedTests ≤ totalOfTests) :
    (failedTests = 0 → passPercent totalOfTests failedTests = 100) ∧
      (1 ≤ failedTests → passPercent totalOfTests failedTests = 0) ∧
      (totalOfTests < 2 * failedTests → passPercent totalOfTests failedTests = 0) ∧
      summary (.done failedTests totalOfTests) =
        .exit totalOfTests (totalOfTests - failedTests)
          (if failedTests = 0 then 100 else 0) failedTests := by
  have h0 : failedTests = 0 → passPercent totalOfTests failedTests = 100 := by
    intro h
    subst h
    rw [passPercent, Nat.sub_zero, Nat.div_self (by omega)]
  have h1 : 1 ≤ failedTests → passPercent totalOfTests failedTests = 0 := by
    intro h
    rw [passPercent, Nat.div_eq_of_lt (by omega)]
  refine ⟨h0, h1, fun h => h1 (by omega), ?_⟩
  rw [summary, if_neg (by omega)]
  by_cases h : failedTests = 0
  · rw [h0 h, if_pos h]
  · rw [h1 (by omega), if_neg h]

theorem passPercent_values_witness :
    (1 ≤ 3 ∧ 1 ≤ 3) ∧ passPercent 3 1 = 0 :=
  ⟨⟨by decide, by decide⟩, (passPercent_values 3 1 (by decide) (by decide)).2.1 (by decide)⟩

/-- C21 fails on the code: a generation run with no category selected hands the writer
the header only, and on a file holding only the header the evaluation run prints the
total 0 and then panics on the division by `totalOfTests = 0` of line 703, whatever the
lower-casing function; with at least one well-formed row the divisor is not zero and
the summary is completed. -/
theorem evaluate_headerOnly_dividePanic :
    runTests noCategoryConfig [] = some ([headerRow], .completed) ∧
      (∀ ToLower : String → String,
        countTests ToLower [headerRow] = some (.done 0 0) ∧
        evaluate ToLower [headerRow] = some (.dividePanic 0)) ∧
      (∀ (ToLower : String → String) (r : List String) (rows : List (List String)),
        (∀ x ∈ r :: rows, x.length = 3) →
        ∃ total passing percent status, total ≠ 0 ∧
          evaluate ToLower (headerRow :: r :: rows) =
            some (.exit total passing percent status)) := by
  refine ⟨by decide, fun ToLower => ?_, fun ToLower r rows h => ?_⟩
  · have hc := countTests_uniform ToLower headerRow [] (by decide) (by simp)
    refine ⟨hc, ?_⟩
    rw [evaluate_eq_summary, hc]
    rfl
  · have hc := countTests_uniform ToLower headerRow (r :: rows) (by decide) h
    have hne : (r :: rows).length ≠ 0 := by simp
    have he : evaluate ToLower (headerRow :: r :: rows) =
        some (.exit (r :: rows).length
          ((r :: rows).length - ((r :: rows).filter (mismatch ToLower)).length)
          (passPercent (r :: rows).length ((r :: rows).filter (mismatch ToLower)).length)
          ((r :: rows).filter (mismatch ToLower)).length) := by
      rw [evaluate_eq_summary, hc]
      simp only [Option.map_some', summary]
      rw [if_neg hne]
    exact ⟨_, _, _, _, hne, he⟩

theorem mem_start (cond : Bool) (gen : Generator) (s : Started) (x : Generator) :
    x ∈ (start cond gen s).goroutines ↔ x ∈ s.goroutines ∨ (cond = true ∧ x = gen) := by
  cases cond with
  | false => simp [start]
  | true => simp [start]

theorem mem_startTests (cfg : Config) (x : Generator) :
    x ∈ (startTests cfg).goroutines ↔ (x.toggle cfg || cfg.runAllTests) = true := by
  unfold startTests
  simp only [mem_start, List.not_mem_nil, false_or]
  cases x <;> simp [Generator.toggle]

theorem startTests_all (cfg : Config) (h : cfg.runAllTests = true) :
    startTests cfg =
      { goroutines := [.shouldPass, .shouldFailSpecialChars, .shouldFailIllegalChars,
          .shouldFailNumber, .shouldFailUpper, .shouldFailLower, .shouldFailLength],
        tests := 7 } := by
  unfold startTests
  simp [h, start]

theorem startTests_sublist (cfg : Config) :
    (startTests cfg).goroutines.Sublist
      [.shouldPass, .shouldFailSpecialChars, .shouldFailIllegalChars, .shouldFailNumber,
        .shouldFailUpper, .shouldFailLower, .shouldFailLength] := by
  have hstep : ∀ (cond : Bool) (gen : Generator) (s : Started) (l : List Generator),
      s.goroutines.Sublist l → (start cond gen s).goroutines.Sublist (l ++ [gen]) := by
    intro cond gen s l h
    cases cond with
    | false => exact h.trans (List.sublist_append_left _ _)
    | true => exact List.Sublist.append h (List.Sublist.refl _)
  unfold startTests
  exact hstep _ _ _ _ (hstep _ _ _ _ (hstep _ _ _ _ (hstep _ _ _ _ (hstep _ _ _ _
    (hstep _ _ _ _ (hstep _ _ _ [] (List.Sublist.refl _)))))))

/-- C22. Category selection. With `run-tests` set and `run-all-tests` set, all seven
generators are started, whatever the individual flags are, and `tests` is 7, so the
bound of the loop is `testsToRun*7`. With `run-tests` set and `run-all-tests` not set,
the generators started are exactly those whose individual toggle is set, each once,
and `shouldPass` is not among them, its toggle `runShouldPass` being bound to no flag.
With `run-tests` not set no generator is started and nothing is written. -/
theorem category_selection (cfg : Config) :
    (cfg.doTests = true → cfg.runAllTests = true →
      mainStarted cfg =
        [.shouldPass, .shouldFailSpecialChars, .shouldFailIllegalChars, .shouldFailNumber,
          .shouldFailUpper, .shouldFailLower, .shouldFailLength] ∧
      (startTests cfg).tests = 7 ∧
      loopBound cfg = (wrapInt (cfg.testsToRun * 7)).toNat ∧
      (0 ≤ cfg.testsToRun → cfg.testsToRun * 7 < 2 ^ 63 →
        loopBound cfg = 7 * cfg.testsToRun.toNat)) ∧
    (cfg.doTests = true → cfg.runAllTests = false →
      (∀ gen : Generator, gen ∈ mainStarted cfg ↔ gen.toggle cfg = true) ∧
      (mainStarted cfg).Nodup ∧
      Generator.shouldPass ∉ mainStarted cfg) ∧
    (cfg.doTests = false →
      mainStarted cfg = [] ∧ ∀ received, runTests cfg received = none) := by
  refine ⟨fun hT hA => ?_, fun hT hA => ?_, fun hT => ?_⟩
  · have hs := startTests_all cfg hA
    have hb : loopBound cfg = (wrapInt (cfg.testsToRun * 7)).toNat := by
      rw [loopBound, hs]
    refine ⟨by rw [mainStarted, if_pos hT, hs], by rw [hs], hb, fun h0 h1 => ?_⟩
    rw [hb, wrapInt_eq (by omega) h1]
    omega
  · have hm : ∀ gen : Generator, gen ∈ mainStarted cfg ↔ gen.toggle cfg = true := by
      intro gen
      rw [mainStarted, if_pos hT, mem_startTests, hA, Bool.or_false]
    refine ⟨hm, ?_, ?_⟩
    · rw [mainStarted, if_pos hT]
      exact (startTests_sublist cfg).nodup (by decide)
    · rw [hm]
      simp [Generator.toggle, runShouldPass]
  · refine ⟨by rw [mainStarted, hT]; rfl, fun received => ?_⟩
    rw [runTests, hT]
    rfl

theorem category_selection_witness :
    (failFastConfig.doTests = true ∧ failFastConfig.runAllTests = false) ∧
      mainStarted failFastConfig = [.shouldFailUpper, .shouldFailLength] ∧
      (Generator.shouldFailUpper ∈ mainStarted failFastConfig ↔
        Generator.shouldFailUpper.toggle failFastConfig = true) ∧
      Generator.shouldPass ∉ mainStarted failFastConfig :=
  ⟨⟨by decide, by decide⟩, by decide,
    ((category_selection failFastConfig).2.1 (by decide) (by decide)).1 .shouldFailUpper,
    ((category_selection failFastConfig).2.1 (by decide) (by decide)).2.2⟩

end CredsTester
